import Mathlib

/-!
# GitHub-Projects-Universal-Adapter: schedule-to-plan pipeline

Shallow embedding of the two planners of the repository,
`src/gitproject-universal.js` (class `GitProjectUniversal`) and
`src/github-projects-adapter.js` (class `GitHubProjectsAdapter`).

Conventions of the embedding

* JavaScript strings are lists of characters (`List Char`).  The texts come from
  UTF-8 files, so they hold no lone surrogate and substring search over code
  units agrees with substring search over code points.
* JavaScript numbers that hold integers are `Int` (or `Nat` where the source
  can only produce a non-negative value).  This is exact below `2^53`.
* `undefined` is `none`.
* Fields of the records that no property refers to and that are pure display
  text (`nome`, `objetivo`) are left out of the sprint records.
* A `Date` is its time value, the number of milliseconds since the epoch, and
  the time zone of the process is a parameter; a calendar date printed by
  `toISOString` is the number of its day since the epoch.
-/

set_option maxRecDepth 100000

/-! ## JavaScript text primitives -/

namespace JS

/-- The method `String.prototype.includes`: `needle` occurs in `s` as a contiguous block. -/
def includes (s needle : List Char) : Bool :=
  s.tails.any (fun t => needle.isPrefixOf t)

/-- The class `\d` of a regular expression without the `u` flag: `0` to `9`. -/
def isDigit (c : Char) : Bool :=
  decide (48 ≤ c.toNat) && decide (c.toNat ≤ 57)

/-- The class `\s` of a regular expression, which is also the set of characters
removed by `String.prototype.trim`: white space and line terminators. -/
def isSpace (c : Char) : Bool :=
  let n := c.toNat
  decide (9 ≤ n ∧ n ≤ 13) || n == 0x20 || n == 0xA0 || n == 0x1680
    || decide (0x2000 ≤ n ∧ n ≤ 0x200A) || n == 0x2028 || n == 0x2029
    || n == 0x202F || n == 0x205F || n == 0x3000 || n == 0xFEFF

/-- The method `String.prototype.trim`. -/
def trim (s : List Char) : List Char :=
  ((s.dropWhile isSpace).reverse.dropWhile isSpace).reverse

/-- The function `parseInt` on a text made of decimal digits. -/
def parseDigits (ds : List Char) : Nat :=
  ds.foldl (fun n c => 10 * n + (c.toNat - 48)) 0

/-- The value `Math.ceil(a / b)` for integers `a` and `b` with `b ≠ 0`.  (For `b = 0`
JavaScript yields `Infinity` or `NaN`; the properties below assume `0 < b`.) -/
def ceilDiv (a b : Int) : Int :=
  -(Int.fdiv (-a) b)

/-- The text `String(n).padStart(3, '0')`. -/
def padStart3 (n : Nat) : List Char :=
  let ds := Nat.toDigits 10 n
  List.replicate (3 - ds.length) '0' ++ ds

end JS

/-! ## GitProjectUniversal: configuration, priority and story points -/

namespace GitProjectUniversal

/-- The object `config.pontuacao`. -/
structure Pontuacao where
  /-- Field `horas_por_ponto` -/
  horas_por_ponto : Int
  /-- Field `ajuste_prioridade`, an object read by key; a missing key is `none`. -/
  ajuste_prioridade : String → Option Int
  /-- Field `fibonacci`, the point scale. -/
  fibonacci : List Int

/-- The object `config.sprints`. -/
structure SprintsConfig where
  /-- Field `capacidade_pontos` -/
  capacidade_pontos : Int
  /-- Field `duracao_dias` -/
  duracao_dias : Int
  /-- Field `inicio_projeto`, as the time value in milliseconds of
  `new Date(inicio_projeto)`. -/
  inicio_projeto : Int

/-- The time zone of the process, as the two offsets between local time and
UTC that `Date` uses, in milliseconds. -/
structure FusoHorario where
  /-- The offset of local time at a UTC time value: `LocalTime(t) = t + offset t`. -/
  offset : Int → Int
  /-- The offset at a local time value: `UTC(l) = l - offsetLocal l`. -/
  offsetLocal : Int → Int

/-- The part of the configuration document read by the planner, together with
the time zone in which the planner runs. -/
structure Config where
  /-- Field `config.pontuacao` -/
  pontuacao : Pontuacao
  /-- Field `config.sprints` -/
  sprints : SprintsConfig
  /-- The time zone of the process; it is not part of the document. -/
  fuso : FusoHorario

/-- The method `processarPrioridade` (lines 109-114). -/
def processarPrioridade (prioridade : List Char) : String :=
  if JS.includes prioridade "🔴".toList || JS.includes prioridade "Alta".toList then "alta"
  else if JS.includes prioridade "🟡".toList || JS.includes prioridade "Média".toList then "media"
  else if JS.includes prioridade "🟢".toList || JS.includes prioridade "Baixa".toList then "baixa"
  else "media"

/-- The value `duracao.match(/(\d+)h/)?.[1]`: the first group of the leftmost
match.  At a start position `\d+` takes the whole run of digits (a shorter run is
followed by a digit, never by `h`), and the match succeeds when `h` follows. -/
def matchHoras : List Char → Option (List Char)
  | [] => none
  | c :: cs =>
    let ds := (c :: cs).takeWhile JS.isDigit
    let rest := (c :: cs).dropWhile JS.isDigit
    if ds ≠ [] ∧ rest.head? = some 'h' then some ds else matchHoras cs

/-- The constant `horas` of `calcularPontos` (line 120):
`parseInt(duracao.match(/(\d+)h/)?.[1] || '4')`.  The group is never empty, so
the default applies exactly when there is no match. -/
def horasDe (duracao : List Char) : Nat :=
  JS.parseDigits ((matchHoras duracao).getD ['4'])

/-- The method `calcularPontos` (lines 119-130).  A missing adjustment makes
`pontos` a `NaN`, every comparison `f >= pontos` false and the result the last
scale value; `find` returning `0` is falsy and also gives the last scale value; the
last value of an empty scale is `undefined`. -/
def calcularPontos (config : Config) (duracao prioridade : List Char) : Option Int :=
  let horas : Int := horasDe duracao
  let pontos := JS.ceilDiv horas config.pontuacao.horas_por_ponto
  let fibonacci := config.pontuacao.fibonacci
  match config.pontuacao.ajuste_prioridade (processarPrioridade prioridade) with
  | none => fibonacci.getLast?
  | some ajuste =>
    let pontos := max 1 (pontos + ajuste)
    match fibonacci.find? (fun f => decide (f ≥ pontos)) with
    | some f => if f = 0 then fibonacci.getLast? else some f
    | none => fibonacci.getLast?

/-- Reference definition of the story-point estimate, following the words of
the specification: `a = max(1, ceil(h / hoursPerPoint) + adjustment)`; the
result is the smallest scale value `≥ a`, and the largest scale value when
there is none. -/
def pontosReferencia (escala : List Int) (horasPorPonto ajuste : Int) (h : Nat) : Option Int :=
  let a : Int := max 1 (⌈(h : ℚ) / (horasPorPonto : ℚ)⌉ + ajuste)
  match (escala.filter (fun f => decide (a ≤ f))).min? with
  | some m => some m
  | none => escala.max?

/-- The time zone UTC. -/
def fusoUTC : FusoHorario :=
  { offset := fun _ => 0, offsetLocal := fun _ => 0 }

/-- The configuration of the examples of the specification: 4 hours per point,
scale 1, 2, 3, 5, 8, adjustments +1, 0, -1, capacity 5; the project starts at
the epoch and the planner runs in UTC. -/
def configExemplo : Config where
  pontuacao :=
    { horas_por_ponto := 4
      ajuste_prioridade := fun k =>
        if k = "alta" then some 1 else if k = "media" then some 0
        else if k = "baixa" then some (-1) else none
      fibonacci := [1, 2, 3, 5, 8] }
  sprints := { capacidade_pontos := 5, duracao_dias := 14, inicio_projeto := 0 }
  fuso := fusoUTC

/-! ## GitProjectUniversal: the schedule parser `extrairTarefas` -/

/-- Canonical form of a character under the `i` flag of a regular expression
without the `u` flag: the upper-case letter for the letters `a` to `z` and
`à` to `þ`, the character itself otherwise.  On the other characters the
canonical form of JavaScript may differ, but it is never an upper-case letter
of these two ranges, so that matching a letter of the header pattern is
modelled exactly: each such letter has two spellings, lower and upper case. -/
def canonicalize (c : Char) : Char :=
  let n := c.toNat
  if (97 ≤ n ∧ n ≤ 122) ∨ (0xE0 ≤ n ∧ n ≤ 0xFE ∧ n ≠ 0xF7) then Char.ofNat (n - 32) else c

/-- A literal word of the pattern, matched at the start of the text under the
`i` flag; gives the text after the word. -/
def matchPalavra : List Char → List Char → Option (List Char)
  | [], s => some s
  | _ :: _, [] => none
  | p :: ps, c :: cs =>
    if canonicalize c = canonicalize p then matchPalavra ps cs else none

/-- The pattern `\|` at the start of the text. -/
def matchPipe : List Char → Option (List Char)
  | [] => none
  | c :: cs => if c = '|' then some cs else none

/-- The pattern `\s*Palavra\s*\|` at the start of the text.  What follows each
`\s*` cannot start with white space, so `\s*` consumes the whole run. -/
def matchColuna (palavra : List Char) (s : List Char) : Option (List Char) :=
  (matchPalavra palavra (s.dropWhile JS.isSpace)).bind
    (fun r => matchPipe (r.dropWhile JS.isSpace))

/-- The header part of `regexTabela` (line 66) at the start of the text:
`\|\s*Dia\s*\|\s*Atividade\s*\|\s*Duração\s*\|\s*Entregável\s*\|\s*Prioridade\s*\|`. -/
def matchCabecalho (s : List Char) : Option (List Char) :=
  ((((matchPipe s).bind (matchColuna "Dia".toList)).bind
    (matchColuna "Atividade".toList)).bind (matchColuna "Duração".toList)).bind
    (fun r => (matchColuna "Entregável".toList r).bind (matchColuna "Prioridade".toList))

/-- The lookahead `(?=\n\n|\n###|\n##|$)` of `regexTabela`; without the `m`
flag `$` is the end of the text. -/
def lookaheadFim (s : List Char) : Bool :=
  "\n\n".toList.isPrefixOf s || "\n###".toList.isPrefixOf s
    || "\n##".toList.isPrefixOf s || s.isEmpty

/-- The lazy group `([\s\S]*?)` of `regexTabela` followed by its lookahead: the
shortest stretch of text after which the lookahead holds. -/
def corpoTabela : List Char → List Char
  | [] => []
  | c :: cs => if lookaheadFim (c :: cs) then [] else c :: corpoTabela cs

/-- The successive results of `regexTabela.exec(conteudo)` (line 72), as the
list of the groups `matchTabela[1]`.  The first argument is the number of
characters still covered by the previous match: the next search starts at
`lastIndex`, the end of the previous match. -/
def tabelas : Nat → List Char → List (List Char)
  | _, [] => []
  | n + 1, _ :: cs => tabelas n cs
  | 0, c :: cs =>
    match matchCabecalho (c :: cs) with
    | some r =>
      let corpo := corpoTabela r
      corpo :: tabelas ((c :: cs).length - r.length + corpo.length - 1) cs
    | none => tabelas 0 cs

/-- The five groups of one match of `regexLinha`. -/
structure Linha where
  /-- Group 1 -/
  dia : List Char
  /-- Group 2 -/
  atividade : List Char
  /-- Group 3 -/
  duracao : List Char
  /-- Group 4 -/
  entregavel : List Char
  /-- Group 5 -/
  prioridade : List Char
deriving DecidableEq

/-- The pattern `\|\s*(\d+)\s*\|` at the start of the text: the group and the
text after the match.  Each `\s*` and the `\d+` consume a whole run, because a
shorter run is followed by a character that the next item rejects. -/
def matchDia (s : List Char) : Option (List Char × List Char) :=
  (matchPipe s).bind fun r =>
    let r := r.dropWhile JS.isSpace
    let ds := r.takeWhile JS.isDigit
    if ds = [] then none
    else (matchPipe ((r.dropWhile JS.isDigit).dropWhile JS.isSpace)).map (fun r => (ds, r))

/-- The pattern `\s*([^|]+)\s*\|` at the start of the text: the group and the
text after the match.  The match ends at the first `|`, and fails when there
is none or when the cell is empty.  The first `\s*` takes the leading white
space and the group takes the rest of the cell; when the cell is all white
space the first `\s*` gives back its last character to the group. -/
def matchCelula (s : List Char) : Option (List Char × List Char) :=
  let conteudo := s.takeWhile (fun c => c ≠ '|')
  match s.dropWhile (fun c => c ≠ '|') with
  | [] => none
  | _ :: r =>
    let g := conteudo.dropWhile JS.isSpace
    if conteudo = [] then none
    else if g = [] then some (conteudo.drop (conteudo.length - 1), r)
    else some (g, r)

/-- The pattern `regexLinha` (line 67) at the start of the text: the groups
and the text after the match. -/
def matchLinha (s : List Char) : Option (Linha × List Char) :=
  (matchDia s).bind fun (dia, r) =>
  (matchCelula r).bind fun (atividade, r) =>
  (matchCelula r).bind fun (duracao, r) =>
  (matchCelula r).bind fun (entregavel, r) =>
  (matchCelula r).map fun (prioridade, r) =>
    ({ dia := dia, atividade := atividade, duracao := duracao,
       entregavel := entregavel, prioridade := prioridade }, r)

/-- The successive results of `regexLinha.exec(matchTabela[1])` (line 76).  The
first argument is the number of characters still covered by the previous
match. -/
def linhas : Nat → List Char → List Linha
  | _, [] => []
  | n + 1, _ :: cs => linhas n cs
  | 0, c :: cs =>
    match matchLinha (c :: cs) with
    | some (l, r) => l :: linhas ((c :: cs).length - r.length - 1) cs
    | none => linhas 0 cs

/-- A task record built by `extrairTarefas`; `sprint` is set by
`organizarSprints`. -/
structure Tarefa where
  /-- Field `id` -/
  id : String
  /-- Field `atividade` -/
  atividade : List Char
  /-- Field `duracao` -/
  duracao : List Char
  /-- Field `entregavel` -/
  entregavel : List Char
  /-- Field `prioridade`, one of alta, media, baixa -/
  prioridade : String
  /-- Field `pontos` -/
  pontos : Option Int
  /-- Field `semana` -/
  semana : Nat
  /-- Field `dia` -/
  dia : Nat
  /-- Field `sprint`, absent before the allocation -/
  sprint : Option Nat
deriving DecidableEq

/-- One entry of `cronograma.semanas`. -/
structure Semana where
  /-- Field `numero` -/
  numero : Nat
  /-- Field `tarefas` -/
  tarefas : List Tarefa
deriving DecidableEq

/-- The object returned by `extrairTarefas`. -/
structure Cronograma where
  /-- Field `semanas` -/
  semanas : List Semana
  /-- Field `total_tarefas` -/
  total_tarefas : Nat
deriving DecidableEq

/-- The object literal `tarefa` of lines 79-88, for the row `l`, when
`cronograma.total_tarefas` is `total`. -/
def criarTarefa (config : Config) (total semanaAtual : Nat) (l : Linha) : Tarefa :=
  { id := String.mk ('T' :: JS.padStart3 (total + 1))
    atividade := JS.trim l.atividade
    duracao := JS.trim l.duracao
    entregavel := JS.trim l.entregavel
    prioridade := processarPrioridade (JS.trim l.prioridade)
    pontos := calcularPontos config (JS.trim l.duracao) (JS.trim l.prioridade)
    semana := semanaAtual
    dia := JS.parseDigits (JS.trim l.dia)
    sprint := none }

/-- The inner loop of `extrairTarefas` (lines 76-92) over the rows of one
table: the state is `tarefasSemana` and `cronograma.total_tarefas`. -/
def lerLinhas (config : Config) (semanaAtual : Nat) :
    List Linha → List Tarefa → Nat → List Tarefa × Nat
  | [], tarefasSemana, total => (tarefasSemana, total)
  | l :: ls, tarefasSemana, total =>
    lerLinhas config semanaAtual ls
      (tarefasSemana ++ [criarTarefa config total semanaAtual l]) (total + 1)

/-- The outer loop of `extrairTarefas` (lines 72-101) over the tables: the
state is `cronograma` and `semanaAtual`. -/
def lerTabelas (config : Config) : List (List Char) → Cronograma → Nat → Cronograma
  | [], cronograma, _ => cronograma
  | corpo :: resto, cronograma, semanaAtual =>
    let r := lerLinhas config semanaAtual (linhas 0 corpo) [] cronograma.total_tarefas
    if r.1.length > 0 then
      lerTabelas config resto
        { semanas := cronograma.semanas ++ [{ numero := semanaAtual, tarefas := r.1 }]
          total_tarefas := r.2 }
        (semanaAtual + 1)
    else
      lerTabelas config resto { cronograma with total_tarefas := r.2 } semanaAtual

/-- The method `extrairTarefas` (lines 62-104). -/
def extrairTarefas (config : Config) (conteudo : List Char) : Cronograma :=
  lerTabelas config (tabelas 0 conteudo) { semanas := [], total_tarefas := 0 } 1

/-- The table of the round-trip scenario of the specification. -/
def tabelaExemplo : List Char :=
  ("| Dia | Atividade | Duração | Entregável | Prioridade |\n"
    ++ "| 1 | Setup ambiente de desenvolvimento | 4h | Ambiente configurado | Alta |\n"
    ++ "| 2 | Escrever testes unitários | 8h | Suite de testes | Média |\n"
    ++ "| 3 | Revisar documentação | 2h | Docs atualizadas | Baixa |\n").toList


/-! ## GitProjectUniversal: the sprint allocator `organizarSprints` -/

/-- A sprint record of `organizarSprints` (lines 164-172), without the display
texts `nome` and `objetivo`.  `data_inicio` and `data_fim` are the calendar
dates of the ISO texts, as day numbers since the epoch. -/
structure Sprint where
  /-- Field `numero` -/
  numero : Nat
  /-- Field `tarefas` -/
  tarefas : List Tarefa
  /-- Field `pontos` -/
  pontos : Int
  /-- Field `data_inicio` -/
  data_inicio : Int
  /-- Field `data_fim` -/
  data_fim : Int
deriving DecidableEq

/-- The effect of `data.setDate(data.getDate() + k)` on the time value `t` of
`data`: the local time is moved by `k` days, its time within the day kept, and
turned back into a UTC time value. -/
def somarDias (fuso : FusoHorario) (t k : Int) : Int :=
  let tLocal := t + fuso.offset t
  let novaData := tLocal + k * 86400000
  novaData - fuso.offsetLocal novaData

/-- The calendar date of `data.toISOString().split('T')[0]` for the time value
`t`, as a day number since the epoch: the date in UTC. -/
def dataISO (t : Int) : Int :=
  Int.fdiv t 86400000

/-- The method `calcularDataSprint` (lines 185-197): the days are added in
local time with `getDate` and `setDate`, and the date is printed in UTC with
`toISOString`. -/
def calcularDataSprint (config : Config) (numeroSprint : Int) (tipo : String) : Int :=
  let inicioBase := config.sprints.inicio_projeto
  let diasOffset := (numeroSprint - 1) * config.sprints.duracao_dias
  let data := somarDias config.fuso inicioBase diasOffset
  let data :=
    if tipo = "fim" then somarDias config.fuso data (config.sprints.duracao_dias - 1)
    else data
  dataISO data

/-- The inner loop of `organizarSprints` (lines 153-162).  The first list is
`todasTarefas` from `indiceTarefa` on; the state is `tarefasSprint` and
`pontosAcumulados`; the result also holds the tasks left from the final
`indiceTarefa` on.  With `pontos` undefined the sum is `NaN` and the
comparison `<=` is false. -/
def encherSprint (capacidade : Int) (sprintAtual : Nat) :
    List Tarefa → List Tarefa → Int → List Tarefa × Int × List Tarefa
  | [], tarefasSprint, pontosAcumulados => (tarefasSprint, pontosAcumulados, [])
  | tarefa :: resto, tarefasSprint, pontosAcumulados =>
    if pontosAcumulados < capacidade then
      match tarefa.pontos with
      | some p =>
        if pontosAcumulados + p ≤ capacidade then
          encherSprint capacidade sprintAtual resto
            (tarefasSprint ++ [{ tarefa with sprint := some sprintAtual }])
            (pontosAcumulados + p)
        else encherSprint capacidade sprintAtual resto tarefasSprint pontosAcumulados
      | none => encherSprint capacidade sprintAtual resto tarefasSprint pontosAcumulados
    else (tarefasSprint, pontosAcumulados, tarefa :: resto)

/-- The sprint object built at lines 164-172. -/
def criarSprint (config : Config) (sprintAtual : Nat) (tarefasSprint : List Tarefa)
    (pontosAcumulados : Int) : Sprint :=
  { numero := sprintAtual
    tarefas := tarefasSprint
    pontos := pontosAcumulados
    data_inicio := calcularDataSprint config sprintAtual "inicio"
    data_fim := calcularDataSprint config sprintAtual "fim" }

/-- The outer loop of `organizarSprints` (lines 147-176), run for at most
`fuel` passes; `none` when the loop has not ended by then.  The list is
`todasTarefas` from `indiceTarefa` on and the last argument is `this.sprints`. -/
def organizarSprintsLoop (config : Config) :
    Nat → Nat → List Tarefa → List Sprint → Option (List Sprint)
  | _, _, [], sprints => some sprints
  | 0, _, _ :: _, _ => none
  | fuel + 1, sprintAtual, tarefa :: resto, sprints =>
    let r := encherSprint config.sprints.capacidade_pontos sprintAtual (tarefa :: resto) [] 0
    organizarSprintsLoop config fuel (sprintAtual + 1) r.2.2
      (sprints ++ [criarSprint config sprintAtual r.1 r.2.1])

/-- The array `todasTarefas` of lines 138-141. -/
def todasTarefas (cronograma : Cronograma) : List Tarefa :=
  (cronograma.semanas.map (fun semana => semana.tarefas)).flatten

/-- The method `organizarSprints` (lines 135-180) on `this.cronograma`, with
the outer loop run for at most `fuel` passes. -/
def organizarSprints (config : Config) (fuel : Nat) (cronograma : Cronograma) :
    Option (List Sprint) :=
  organizarSprintsLoop config fuel 1 (todasTarefas cronograma) []

/-- The zone Europe/Lisbon around its change to summer time in 2025: the offset
is 0 before 2025-03-30 01:00 UTC and one hour from then on (the change back in
October is not modelled).  A local time in the skipped hour is read with the
offset before the change. -/
def fusoLisboa : FusoHorario :=
  { offset := fun t => if t < 1743296400000 then 0 else 3600000
    offsetLocal := fun l => if l < 1743296400000 + 3600000 then 0 else 3600000 }

/-- The example configuration run in Lisbon with `inicio_projeto` set to
`2025-03-17`, the day 20164 since the epoch, and sprints of 14 days. -/
def configLisboa : Config :=
  { pontuacao := configExemplo.pontuacao
    sprints :=
      { capacidade_pontos := 5, duracao_dias := 14, inicio_projeto := 20164 * 86400000 }
    fuso := fusoLisboa }

/-- The points of the tasks of the list are the numbers `ps` (none is
undefined) and `total` is their sum. -/
def SomaDosPontos (tarefas : List Tarefa) (total : Int) : Prop :=
  ∃ ps : List Int, tarefas.map (fun t => t.pontos) = ps.map some ∧ total = ps.sum

/-- A task with the given identifier and points, for the examples. -/
def tarefaExemplo (id : String) (pontos : Int) : Tarefa :=
  { id := id, atividade := [], duracao := [], entregavel := [], prioridade := "media"
    pontos := some pontos, semana := 1, dia := 1, sprint := none }

/-- A schedule of one week holding the given tasks. -/
def cronogramaDe (tarefas : List Tarefa) : Cronograma :=
  { semanas := [{ numero := 1, tarefas := tarefas }], total_tarefas := tarefas.length }

/-! ## GitProjectUniversal: the board builder `criarQuadrosKanban` -/

/-- One entry of the column template `config.kanban.colunas`. -/
structure ColunaConfig where
  /-- Field `nome` -/
  nome : List Char
  /-- Field `cor` -/
  cor : List Char
  /-- Field `limite_wip` -/
  limite_wip : Option Int
deriving DecidableEq

/-- A card built by `criarQuadrosKanban` (lines 251-261), without the display
text `descricao`. -/
structure Card where
  /-- Field `id` -/
  id : String
  /-- Field `titulo` -/
  titulo : List Char
  /-- Field `pontos` -/
  pontos : Option Int
  /-- Field `prioridade` -/
  prioridade : String
  /-- Field `checklist` -/
  checklist : List (List Char)
deriving DecidableEq

/-- A column of a board (lines 240-244): the template entry and its cards.  The
display identifier `id` of the column is left out. -/
structure Coluna where
  /-- Field `nome` -/
  nome : List Char
  /-- Field `cor` -/
  cor : List Char
  /-- Field `limite_wip` -/
  limite_wip : Option Int
  /-- Field `cards` -/
  cards : List Card
deriving DecidableEq

/-- A board built by `criarQuadrosKanban` (lines 236-245), without the display
text `nome`. -/
structure Quadro where
  /-- Field `id` -/
  id : String
  /-- Field `sprint_id` -/
  sprint_id : Nat
  /-- Field `colunas` -/
  colunas : List Coluna
deriving DecidableEq

/-- The card object of lines 251-261 for a task; `checklist_padrao` is
`config.templates.checklist_padrao`, copied into the card. -/
def criarCard (checklist_padrao : List (List Char)) (tarefa : Tarefa) : Card :=
  { id := "CARD_" ++ tarefa.id
    titulo := tarefa.atividade
    pontos := tarefa.pontos
    prioridade := tarefa.prioridade
    checklist := checklist_padrao }

/-- The test of the `find` of line 248: the column is named `Backlog` or
`📋 Backlog`. -/
def ehBacklog (c : Coluna) : Bool :=
  c.nome == "Backlog".toList || c.nome == "📋 Backlog".toList

/-- Lines 248-265: the cards are pushed, in order, on the first column that
passes the test of `find`; when no column passes, the columns are left as they
are. -/
def adicionarAoBacklog : List Coluna → List Card → List Coluna
  | [], _ => []
  | c :: cs, cards =>
    if ehBacklog c then { c with cards := c.cards ++ cards } :: cs
    else c :: adicionarAoBacklog cs cards

/-- The board built for one sprint by the `map` of `criarQuadrosKanban` (lines
235-268); `colunas` is `config.kanban.colunas`. -/
def criarQuadro (colunas : List ColunaConfig) (checklist_padrao : List (List Char))
    (sprint : Sprint) : Quadro :=
  { id := "KB_" ++ String.mk
      (List.replicate (2 - (Nat.toDigits 10 sprint.numero).length) '0'
        ++ Nat.toDigits 10 sprint.numero)
    sprint_id := sprint.numero
    colunas := adicionarAoBacklog
      (colunas.map (fun col =>
        { nome := col.nome, cor := col.cor, limite_wip := col.limite_wip, cards := [] }))
      (sprint.tarefas.map (criarCard checklist_padrao)) }

/-- The method `criarQuadrosKanban` (lines 232-272) on `this.sprints`. -/
def criarQuadrosKanban (colunas : List ColunaConfig) (checklist_padrao : List (List Char))
    (sprints : List Sprint) : List Quadro :=
  sprints.map (criarQuadro colunas checklist_padrao)

/-- The column template of the examples: a backlog column between two other
columns. -/
def colunasExemplo : List ColunaConfig :=
  [ { nome := "Ideias".toList, cor := "gray".toList, limite_wip := none },
    { nome := "📋 Backlog".toList, cor := "blue".toList, limite_wip := none },
    { nome := "Em Progresso".toList, cor := "yellow".toList, limite_wip := some 3 } ]

/-- The sprint of the examples of the boards: sprint 1 with the tasks T001 and
T003. -/
def sprintExemplo : Sprint :=
  criarSprint configExemplo 1 [tarefaExemplo "T001" 3, tarefaExemplo "T003" 2] 5

/-- Reference notion of two texts being equal when the case of the letters is
ignored, following the words of the specification: the texts have the same
canonical form, letter by letter. -/
def igualSemCaixa (a b : List Char) : Bool :=
  a.map canonicalize == b.map canonicalize

/-- The identifier of the task number `k`: the letter `T` followed by `k` in
decimal, padded with zeros on the left to three digits. -/
def idTarefa (k : Nat) : String :=
  String.mk ('T' :: JS.padStart3 k)

/-- The number written in an identifier after its first letter. -/
def numeroDoId (id : String) : Nat :=
  JS.parseDigits (id.data.drop 1)

end GitProjectUniversal

/-! ## GitHubProjectsAdapter: the sprint allocator -/

namespace GitHubProjectsAdapter

/-- A task record of `carregarCronograma` (lines 189-197). -/
structure Tarefa where
  /-- Field `id` -/
  id : String
  /-- Field `atividade` -/
  atividade : List Char
  /-- Field `duracao` -/
  duracao : Int
  /-- Field `pontos` -/
  pontos : Int
  /-- Field `prioridade`, a text such as `🔴 Alta` -/
  prioridade : List Char
  /-- Field `entregavel` -/
  entregavel : List Char
  /-- Field `dia` -/
  dia : Int
deriving DecidableEq

/-- A sprint record of `finalizarSprint` (lines 277-285), without the display
texts `nome` and `objetivo`.  `dataInicio` and `dataFim` are the calendar dates
of the ISO texts, as day numbers since the epoch. -/
structure Sprint where
  /-- Field `numero` -/
  numero : Nat
  /-- Field `tarefas` -/
  tarefas : List Tarefa
  /-- Field `pontos` -/
  pontos : Int
  /-- Field `dataInicio` -/
  dataInicio : Int
  /-- Field `dataFim` -/
  dataFim : Int
deriving DecidableEq

/-- The part of the configuration read by the allocator: `config.sprints`. -/
structure Config where
  /-- Field `capacidade_pontos` -/
  capacidade_pontos : Int
  /-- Field `duracao_dias` -/
  duracao_dias : Int

/-- The calendar date of `date.toISOString().split('T')[0]` for a `Date` given
by its time value in milliseconds, as a day number since the epoch. -/
def isoDate (ms : Int) : Int :=
  Int.fdiv ms 86400000

/-- The priority rank of the comparator of lines 236-237. -/
def rank (t : Tarefa) : Nat :=
  if JS.includes t.prioridade "🔴".toList then 3
  else if JS.includes t.prioridade "🟡".toList then 2 else 1

/-- The array `tarefasOrdenadas` of lines 235-239.  `Array.prototype.sort` is
stable, and the comparator `prioridadeB - prioridadeA` orders by descending
rank; a stable insertion sort gives the same array. -/
def tarefasOrdenadas (tarefas : List Tarefa) : List Tarefa :=
  tarefas.insertionSort (fun a b => rank a ≥ rank b)

/-- The method `finalizarSprint` (lines 268-288): the sprint pushed on `this.sprints`.
`dataInicio` is a time value in milliseconds. -/
def finalizarSprint (numero : Nat) (tarefas : List Tarefa) (pontos : Int)
    (dataInicio : Int) (duracao : Int) : Sprint :=
  let dataFim := dataInicio + duracao * 24 * 60 * 60 * 1000
  { numero := numero
    tarefas := tarefas
    pontos := pontos
    dataInicio := isoDate dataInicio
    dataFim := isoDate dataFim }

/-- The variables of `organizarSprints` during the loop of lines 241-255. -/
structure Estado where
  /-- Field `sprintAtual` -/
  sprintAtual : Nat
  /-- Field `pontosAtual` -/
  pontosAtual : Int
  /-- Field `tarefasAtual` -/
  tarefasAtual : List Tarefa
  /-- Field `dataInicio`, a time value in milliseconds -/
  dataInicio : Int
  /-- Field `this.sprints` -/
  sprints : List Sprint
deriving DecidableEq

/-- The first part of the body of the `for` loop (lines 242-251): the current
sprint is closed when the task does not fit and the sprint is not empty. -/
def fecharSeCheio (config : Config) (e : Estado) (tarefa : Tarefa) : Estado :=
  if e.pontosAtual + tarefa.pontos > config.capacidade_pontos ∧ e.tarefasAtual.length > 0 then
    { sprintAtual := e.sprintAtual + 1
      pontosAtual := 0
      tarefasAtual := []
      dataInicio := e.dataInicio + config.duracao_dias * 24 * 60 * 60 * 1000
      sprints := e.sprints ++
        [finalizarSprint e.sprintAtual e.tarefasAtual e.pontosAtual e.dataInicio
          config.duracao_dias] }
  else e

/-- One pass of the `for` loop (lines 242-254). -/
def passo (config : Config) (e : Estado) (tarefa : Tarefa) : Estado :=
  let e1 := fecharSeCheio config e tarefa
  { e1 with
    tarefasAtual := e1.tarefasAtual ++ [tarefa]
    pontosAtual := e1.pontosAtual + tarefa.pontos }

/-- The state before the loop (lines 229-232) on a new adapter, whose
`this.sprints` is empty; `agora` is the time value of `new Date()`. -/
def estadoInicial (agora : Int) : Estado :=
  { sprintAtual := 1, pontosAtual := 0, tarefasAtual := [], dataInicio := agora, sprints := [] }

/-- The end of `organizarSprints` (lines 258-260): the last sprint is closed
when it holds a task. -/
def fecharUltimo (config : Config) (e : Estado) : List Sprint :=
  if e.tarefasAtual.length > 0 then
    e.sprints ++
      [finalizarSprint e.sprintAtual e.tarefasAtual e.pontosAtual e.dataInicio
        config.duracao_dias]
  else e.sprints

/-- The method `organizarSprints` (lines 223-263) on a new adapter whose
`this.tarefas` is `tarefas`, run at the time `agora`: the final
`this.sprints`. -/
def organizarSprints (config : Config) (agora : Int) (tarefas : List Tarefa) : List Sprint :=
  fecharUltimo config ((tarefasOrdenadas tarefas).foldl (passo config) (estadoInicial agora))

/-- A task with the given identifier, points and priority text, for the
examples. -/
def tarefaAdapter (id : String) (pontos : Int) (prioridade : String) : Tarefa :=
  { id := id, atividade := [], duracao := pontos, pontos := pontos
    prioridade := prioridade.toList, entregavel := [], dia := 1 }

/-- The sum of the points of the tasks of a list. -/
def somaPontos (tarefas : List Tarefa) : Int :=
  (tarefas.map (fun t => t.pontos)).sum

/-- The invariant of the loop of `organizarSprints` after the tasks `vistas`:
the running total is the sum of the open sprint, an open sprint of more than
one task is within the capacity, the closed sprints followed by the open one
hold the tasks seen, in order, and every closed sprint is non-empty, carries
the sum of its tasks and is within the capacity when it has more than one
task. -/
def Invariante (config : Config) (e : Estado) (vistas : List Tarefa) : Prop :=
  e.pontosAtual = somaPontos e.tarefasAtual
    ∧ (1 < e.tarefasAtual.length → e.pontosAtual ≤ config.capacidade_pontos)
    ∧ (e.sprints.map (fun s => s.tarefas)).flatten ++ e.tarefasAtual = vistas
    ∧ ∀ s ∈ e.sprints, s.pontos = somaPontos s.tarefas ∧ s.tarefas ≠ []
        ∧ (1 < s.tarefas.length → s.pontos ≤ config.capacidade_pontos)

/-! ## GitHubProjectsAdapter: the schedule parser `carregarCronograma` -/

/-- The property `length` of a string: the number of UTF-16 code units. -/
def comprimento (s : List Char) : Nat :=
  (s.map (fun c => if c.toNat < 0x10000 then 1 else 2)).sum

/-- The pattern `\s*([^|]+?)\s*\|` of `regexTarefa` at the start of the text:
the group and the text after the match.  The match ends at the first `|`, and
fails when there is none or when the cell is empty.  The first `\s*` takes the
leading white space and the lazy group stops as soon as only white space is
left before the `|`; when the cell is all white space the first `\s*` gives
back its last character to the group. -/
def matchCelulaLazy (s : List Char) : Option (List Char × List Char) :=
  let conteudo := s.takeWhile (fun c => c ≠ '|')
  match s.dropWhile (fun c => c ≠ '|') with
  | [] => none
  | _ :: r =>
    let g := conteudo.dropWhile JS.isSpace
    if conteudo = [] then none
    else if g = [] then some (conteudo.drop (conteudo.length - 1), r)
    else some ((g.reverse.dropWhile JS.isSpace).reverse, r)

/-- The pattern `\s*(\d+)h?\s*\|` of `regexTarefa` at the start of the text: the
group and the text after the match.  Each item consumes all it can, because
what it leaves would be rejected by the next item. -/
def matchDuracao (s : List Char) : Option (List Char × List Char) :=
  let r := s.dropWhile JS.isSpace
  let ds := r.takeWhile JS.isDigit
  if ds = [] then none
  else
    let r1 := r.dropWhile JS.isDigit
    let r2 := match r1 with
      | [] => []
      | c :: cs => if c = 'h' then cs else c :: cs
    (GitProjectUniversal.matchPipe (r2.dropWhile JS.isSpace)).map (fun r => (ds, r))

/-- The pattern `regexTarefa` (line 175) at the start of the text: the five
groups and the text after the match. -/
def matchTarefa (s : List Char) : Option (GitProjectUniversal.Linha × List Char) :=
  (GitProjectUniversal.matchDia s).bind fun (dia, r) =>
  (matchCelulaLazy r).bind fun (atividade, r) =>
  (matchDuracao r).bind fun (duracao, r) =>
  (matchCelulaLazy r).bind fun (entregavel, r) =>
  (matchCelulaLazy r).map fun (prioridade, r) =>
    ({ dia := dia, atividade := atividade, duracao := duracao,
       entregavel := entregavel, prioridade := prioridade }, r)

/-- The successive results of `regexTarefa.exec(conteudo)` (line 179).  The
first argument is the number of characters still covered by the previous
match. -/
def linhasTarefa : Nat → List Char → List GitProjectUniversal.Linha
  | _, [] => []
  | n + 1, _ :: cs => linhasTarefa n cs
  | 0, c :: cs =>
    match matchTarefa (c :: cs) with
    | some (l, r) => l :: linhasTarefa ((c :: cs).length - r.length - 1) cs
    | none => linhasTarefa 0 cs

/-- The filter of lines 183-187 on a matched row. -/
def aceita (l : GitProjectUniversal.Linha) : Bool :=
  l.atividade ≠ []
    && JS.trim l.atividade ≠ "Atividade".toList
    && JS.trim l.atividade ≠ "---".toList
    && !JS.includes l.atividade "---".toList
    && decide (comprimento (JS.trim l.atividade) > 3)

/-- The names of the properties that every object inherits: read by key on
`mapa`, they give a function or an object, not a text. -/
def propriedadesHerdadas : List (List Char) :=
  ["constructor".toList, "hasOwnProperty".toList, "isPrototypeOf".toList,
   "propertyIsEnumerable".toList, "toLocaleString".toList, "toString".toList,
   "valueOf".toList, "__proto__".toList, "__defineGetter__".toList,
   "__defineSetter__".toList, "__lookupGetter__".toList, "__lookupSetter__".toList]

/-- The method `mapearPrioridade` (lines 208-218); `none` when the result is
not a text, which happens when the cell is the name of an inherited property. -/
def mapearPrioridade (prioridade : List Char) : Option (List Char) :=
  if prioridade = "Alta".toList ∨ prioridade = "alta".toList then some "🔴 Alta".toList
  else if prioridade = "Média".toList ∨ prioridade = "média".toList then
    some "🟡 Média".toList
  else if prioridade = "Baixa".toList ∨ prioridade = "baixa".toList then
    some "🟢 Baixa".toList
  else if prioridade ∈ propriedadesHerdadas then none
  else some "🟡 Média".toList

/-- A task record as pushed by `carregarCronograma` (lines 189-197); it is a
`Tarefa` when `prioridade` is a text. -/
structure TarefaLida where
  /-- Field `id` -/
  id : String
  /-- Field `atividade` -/
  atividade : List Char
  /-- Field `duracao` -/
  duracao : Int
  /-- Field `pontos` -/
  pontos : Int
  /-- Field `prioridade` -/
  prioridade : Option (List Char)
  /-- Field `entregavel` -/
  entregavel : List Char
  /-- Field `dia` -/
  dia : Int
deriving DecidableEq

/-- The value `parseInt(ds) || alt` for a text of digits: zero is falsy. -/
def parseIntOu (ds : List Char) (alt : Nat) : Nat :=
  if JS.parseDigits ds = 0 then alt else JS.parseDigits ds

/-- The object pushed at lines 189-197 for the row `l`, when the counter is
`contador`. -/
def criarTarefaLida (contador : Nat) (l : GitProjectUniversal.Linha) : TarefaLida :=
  { id := String.mk ('T' :: JS.padStart3 contador)
    atividade := JS.trim l.atividade
    duracao := parseIntOu l.duracao 1
    pontos := parseIntOu l.duracao 1
    prioridade := mapearPrioridade (JS.trim l.prioridade)
    entregavel := JS.trim l.entregavel
    dia := parseIntOu l.dia contador }

/-- The loop of `carregarCronograma` (lines 179-200) over the matched rows: the
state is `this.tarefas` and `contador`. -/
def carregarLinhas : List GitProjectUniversal.Linha → List TarefaLida → Nat →
    List TarefaLida × Nat
  | [], tarefas, contador => (tarefas, contador)
  | l :: ls, tarefas, contador =>
    if aceita l then
      carregarLinhas ls (tarefas ++ [criarTarefaLida contador l]) (contador + 1)
    else carregarLinhas ls tarefas contador

/-- The method `carregarCronograma` (lines 146-203) on a new adapter, whose
`this.tarefas` is empty, for a schedule file of content `conteudo`: the final
`this.tarefas`. -/
def carregarCronograma (conteudo : List Char) : List TarefaLida :=
  (carregarLinhas (linhasTarefa 0 conteudo) [] 1).1

/-- The priority rank that the comparator of lines 236-237 computes for a task
left by `carregarCronograma` whose `prioridade` is a text. -/
def rankLida (t : TarefaLida) : Nat :=
  match t.prioridade with
  | some p =>
    if JS.includes p "🔴".toList then 3 else if JS.includes p "🟡".toList then 2 else 1
  | none => 0

/-- The array `tarefasOrdenadas` of lines 235-239 on the tasks left by
`carregarCronograma`; `none` when the comparator throws.  An array of fewer
than two tasks is returned without any call of the comparator.  Otherwise
every task is passed to the comparator at least once, and the comparator reads
`prioridade.includes` of both its arguments: when the `prioridade` of a task
is not a text this is not a function, the call throws a `TypeError`, and
`organizarSprints` ends there, before any sprint is pushed. -/
def tarefasOrdenadasLidas (lidas : List TarefaLida) : Option (List TarefaLida) :=
  if lidas.length < 2 then some lidas
  else if lidas.any (fun t => t.prioridade.isNone) then none
  else some (lidas.insertionSort (fun a b => rankLida a ≥ rankLida b))

/-- A schedule of two rows whose second priority cell is `constructor`, the
name of a property that every object inherits. -/
def documentoHerdado : List Char :=
  ("| Dia | Atividade | Duração | Entregável | Prioridade |\n"
    ++ "| 1 | Setup ambiente | 4h | Ambiente configurado | Alta |\n"
    ++ "| 2 | Escrever testes | 8h | Suite de testes | constructor |\n").toList

/-- Four tasks of 2 points, in the order low, high, medium, high. -/
def tarefasMistas : List Tarefa :=
  [tarefaAdapter "T001" 2 "🟢 Baixa", tarefaAdapter "T002" 2 "🔴 Alta",
    tarefaAdapter "T003" 2 "🟡 Média", tarefaAdapter "T004" 2 "🔴 Alta"]

/-- A schedule whose rows have the days 7, 7 and 3, with a header and a
separator row. -/
def documentoExemplo : List Char :=
  ("| Dia | Atividade | Duração | Entregável | Prioridade |\n"
    ++ "|-----|-----------|---------|------------|------------|\n"
    ++ "| 7 | Setup ambiente | 4h | Ambiente configurado | Alta |\n"
    ++ "| 7 | Escrever testes | 8 | Suite de testes | média |\n"
    ++ "| 3 | Revisar documentação | 2h | Docs atualizadas | Baixa |\n").toList

end GitHubProjectsAdapter

/-! ## Lemmas on the primitives -/

namespace JS

theorem ceilDiv_eq_ceil (a b : Int) (hb : 0 < b) :
    ceilDiv a b = ⌈(a : ℚ) / (b : ℚ)⌉ := by
  unfold ceilDiv
  rw [Int.fdiv_eq_ediv _ hb.le]
  obtain ⟨d, rfl⟩ := Int.eq_ofNat_of_zero_le hb.le
  have h := Rat.floor_intCast_div_natCast (-a) d
  have h2 : ((a : ℚ) / ((d : ℤ) : ℚ)) = -(((-a : ℤ) : ℚ) / (d : ℚ)) := by
    push_cast
    ring
  rw [h2, Int.ceil_neg, h]

theorem digitChar_lt_ten (d : Nat) (h : d < 10) :
    isDigit (Nat.digitChar d) = true ∧ (Nat.digitChar d).toNat - 48 = d := by
  interval_cases d <;> decide

theorem toDigitsCore_decimal :
    ∀ (fuel n : Nat) (ds : List Char), n < fuel →
      ∃ l, Nat.toDigitsCore 10 fuel n ds = l ++ ds ∧ l ≠ []
        ∧ (∀ c ∈ l, isDigit c = true)
        ∧ ∀ acc, l.foldl (fun n c => 10 * n + (c.toNat - 48)) acc = acc * 10 ^ l.length + n
  | 0, n, ds, h => by omega
  | fuel + 1, n, ds, h => by
    have hd := digitChar_lt_ten (n % 10) (Nat.mod_lt _ (by decide))
    rw [Nat.toDigitsCore]
    by_cases h0 : n / 10 = 0
    · simp only [h0, if_true]
      refine ⟨[Nat.digitChar (n % 10)], rfl, by simp, ?_, ?_⟩
      · intro c hc
        rw [List.mem_singleton.mp hc]
        exact hd.1
      · intro acc
        simp only [List.foldl_cons, List.foldl_nil, hd.2, List.length_singleton, pow_one]
        omega
    · simp only [h0, if_false]
      have hlt : n / 10 < fuel := by omega
      obtain ⟨l, h1, h2, h3, h4⟩ :=
        toDigitsCore_decimal fuel (n / 10) (Nat.digitChar (n % 10) :: ds) hlt
      refine ⟨l ++ [Nat.digitChar (n % 10)], by simp [h1], by simp, ?_, ?_⟩
      · intro c hc
        rcases List.mem_append.mp hc with hc | hc
        · exact h3 c hc
        · rw [List.mem_singleton.mp hc]
          exact hd.1
      · intro acc
        simp only [List.foldl_append, h4, List.foldl_cons, List.foldl_nil, hd.2,
          List.length_append, List.length_singleton, pow_succ]
        have := Nat.div_add_mod n 10
        nlinarith [this]

/-- The decimal text of a number is a non-empty run of digits that `parseInt`
reads back as the number. -/
theorem toDigits_decimal (n : Nat) :
    Nat.toDigits 10 n ≠ [] ∧ (∀ c ∈ Nat.toDigits 10 n, isDigit c = true)
      ∧ parseDigits (Nat.toDigits 10 n) = n := by
  obtain ⟨l, h1, h2, h3, h4⟩ := toDigitsCore_decimal (n + 1) n [] (Nat.lt_succ_self n)
  rw [List.append_nil] at h1
  unfold Nat.toDigits parseDigits
  rw [h1]
  refine ⟨h2, h3, ?_⟩
  rw [h4 0]
  simp

end JS

/-! ## GitProjectUniversal: lemmas on the story points -/

namespace GitProjectUniversal

theorem matchHoras_digits (l r : List Char) (hne : l ≠ [])
    (hd : ∀ c ∈ l, JS.isDigit c = true) : matchHoras (l ++ 'h' :: r) = some l := by
  have hh : ¬ JS.isDigit 'h' = true := by decide
  have ht : (l ++ 'h' :: r).takeWhile JS.isDigit = l := by
    rw [List.takeWhile_append_of_pos hd, List.takeWhile_cons_of_neg hh, List.append_nil]
  have hdr : (l ++ 'h' :: r).dropWhile JS.isDigit = 'h' :: r := by
    rw [List.dropWhile_append_of_pos hd, List.dropWhile_cons_of_neg hh]
  cases l with
  | nil => exact absurd rfl hne
  | cons c cs =>
    rw [List.cons_append, matchHoras]
    rw [List.cons_append] at ht hdr
    simp only [ht, hdr, List.head?_cons]
    simp

/-- The decimal text of `h` followed by the unit letter is read as `h` hours. -/
theorem horasDe_decimal (h : Nat) : horasDe (Nat.toDigits 10 h ++ ['h']) = h := by
  obtain ⟨h1, h2, h3⟩ := JS.toDigits_decimal h
  unfold horasDe
  rw [matchHoras_digits _ [] h1 h2]
  exact h3

theorem processarPrioridade_cases (p : List Char) :
    processarPrioridade p = "alta" ∨ processarPrioridade p = "media"
      ∨ processarPrioridade p = "baixa" := by
  unfold processarPrioridade
  split
  · exact Or.inl rfl
  · split
    · exact Or.inr (Or.inl rfl)
    · split
      · exact Or.inr (Or.inr rfl)
      · exact Or.inr (Or.inl rfl)

theorem find_ge_first (a : Int) :
    ∀ (l : List Int) (f : Int), l.Sorted (· ≤ ·) →
      l.find? (fun x => decide (x ≥ a)) = some f →
      f ∈ l ∧ a ≤ f ∧ ∀ b ∈ l, a ≤ b → f ≤ b
  | [], f, _, h => by simp at h
  | x :: xs, f, hs, h => by
    rw [List.find?_cons] at h
    by_cases hx : a ≤ x
    · have hdx : decide (x ≥ a) = true := by simpa using hx
      rw [hdx] at h
      injection h with h
      subst h
      refine ⟨List.mem_cons_self _ _, hx, ?_⟩
      intro b hb _
      rcases List.mem_cons.mp hb with rfl | hb
      · exact le_refl _
      · exact List.rel_of_sorted_cons hs b hb
    · have hdx : decide (x ≥ a) = false := by simpa using hx
      rw [hdx] at h
      obtain ⟨h1, h2, h3⟩ := find_ge_first a xs f hs.of_cons h
      refine ⟨List.mem_cons_of_mem _ h1, h2, ?_⟩
      intro b hb hab
      rcases List.mem_cons.mp hb with rfl | hb
      · exact absurd hab hx
      · exact h3 b hb hab

theorem sorted_getLast_max (l : List Int) (m : Int) (hs : l.Sorted (· ≤ ·))
    (h : l.getLast? = some m) : ∀ b ∈ l, b ≤ m := by
  obtain ⟨ys, rfl⟩ := List.getLast?_eq_some_iff.mp h
  intro b hb
  rcases List.mem_append.mp hb with hb | hb
  · exact (List.pairwise_append.mp hs).2.2 b hb m (List.mem_singleton_self m)
  · rw [List.mem_singleton.mp hb]

theorem int_min?_eq_some_iff {a : Int} {xs : List Int} :
    xs.min? = some a ↔ a ∈ xs ∧ ∀ b ∈ xs, a ≤ b :=
  haveI : Std.Antisymm (fun (x y : Int) => x ≤ y) := ⟨fun h1 h2 => le_antisymm h1 h2⟩
  List.min?_eq_some_iff (fun _ => le_refl _) (fun a b => min_choice a b)
    (fun _ _ _ => le_min_iff)

theorem int_max?_eq_some_iff {a : Int} {xs : List Int} :
    xs.max? = some a ↔ a ∈ xs ∧ ∀ b ∈ xs, b ≤ a :=
  haveI : Std.Antisymm (fun (x y : Int) => x ≤ y) := ⟨fun h1 h2 => le_antisymm h1 h2⟩
  List.max?_eq_some_iff (fun _ => le_refl _) (fun a b => max_choice a b)
    (fun _ _ _ => max_le_iff)

end GitProjectUniversal

/-! ## GitProjectUniversal: lemmas on the allocator -/

namespace GitProjectUniversal

theorem organizarSprintsLoop_mono (config : Config) :
    ∀ (fuel sprintAtual : Nat) (tarefas : List Tarefa) (sprints r : List Sprint),
      organizarSprintsLoop config fuel sprintAtual tarefas sprints = some r →
      ∀ k, organizarSprintsLoop config (fuel + k) sprintAtual tarefas sprints = some r
  | fuel, n, [], sprints, r, h, k => by
    rw [organizarSprintsLoop] at h ⊢
    exact h
  | 0, n, t :: ts, sprints, r, h, k => by
    rw [organizarSprintsLoop] at h
    exact absurd h (by simp)
  | fuel + 1, n, t :: ts, sprints, r, h, k => by
    rw [organizarSprintsLoop] at h
    rw [show fuel + 1 + k = (fuel + k) + 1 by omega, organizarSprintsLoop]
    exact organizarSprintsLoop_mono config fuel _ _ _ r h k

theorem encherSprint_soma (capacidade : Int) (sprintAtual : Nat) :
    ∀ (tarefas tarefasSprint : List Tarefa) (acc : Int),
      SomaDosPontos tarefasSprint acc → (tarefasSprint ≠ [] → acc ≤ capacidade) →
      SomaDosPontos (encherSprint capacidade sprintAtual tarefas tarefasSprint acc).1
          (encherSprint capacidade sprintAtual tarefas tarefasSprint acc).2.1
        ∧ ((encherSprint capacidade sprintAtual tarefas tarefasSprint acc).1 ≠ [] →
          (encherSprint capacidade sprintAtual tarefas tarefasSprint acc).2.1 ≤ capacidade)
  | [], tsp, acc, h1, h2 => by
    rw [encherSprint]
    exact ⟨h1, h2⟩
  | t :: resto, tsp, acc, h1, h2 => by
    rw [encherSprint]
    split
    · split
      · next p hp =>
        split
        · next hle =>
          apply encherSprint_soma capacidade sprintAtual resto
          · obtain ⟨ps, hps, hacc⟩ := h1
            refine ⟨ps ++ [p], ?_, ?_⟩
            · simp [hps, hp]
            · simp [hacc]
          · intro _
            exact hle
        · exact encherSprint_soma capacidade sprintAtual resto tsp acc h1 h2
      · exact encherSprint_soma capacidade sprintAtual resto tsp acc h1 h2
    · exact ⟨h1, h2⟩

theorem encherSprint_resto_le (capacidade : Int) (sprintAtual : Nat) :
    ∀ (tarefas tarefasSprint : List Tarefa) (acc : Int),
      (encherSprint capacidade sprintAtual tarefas tarefasSprint acc).2.2.length
        ≤ tarefas.length
  | [], tsp, acc => by
    rw [encherSprint]
  | t :: resto, tsp, acc => by
    rw [encherSprint]
    split
    · split
      · split
        · exact Nat.le_succ_of_le (encherSprint_resto_le capacidade sprintAtual resto _ _)
        · exact Nat.le_succ_of_le (encherSprint_resto_le capacidade sprintAtual resto _ _)
      · exact Nat.le_succ_of_le (encherSprint_resto_le capacidade sprintAtual resto _ _)
    · simp

theorem encherSprint_resto_lt (capacidade : Int) (sprintAtual : Nat) (t : Tarefa)
    (resto tarefasSprint : List Tarefa) (acc : Int) (h : acc < capacidade) :
    (encherSprint capacidade sprintAtual (t :: resto) tarefasSprint acc).2.2.length
      ≤ resto.length := by
  rw [encherSprint, if_pos h]
  split
  · split
    · exact encherSprint_resto_le capacidade sprintAtual resto _ _
    · exact encherSprint_resto_le capacidade sprintAtual resto _ _
  · exact encherSprint_resto_le capacidade sprintAtual resto _ _

theorem organizarSprintsLoop_termina (config : Config)
    (hcap : 0 < config.sprints.capacidade_pontos) :
    ∀ (fuel sprintAtual : Nat) (tarefas : List Tarefa) (sprints : List Sprint),
      tarefas.length ≤ fuel →
      ∃ r, organizarSprintsLoop config fuel sprintAtual tarefas sprints = some r
  | fuel, n, [], sprints, _ => by
    rw [organizarSprintsLoop]
    exact ⟨_, rfl⟩
  | 0, n, t :: ts, sprints, h => by simp at h
  | fuel + 1, n, t :: ts, sprints, h => by
    rw [organizarSprintsLoop]
    apply organizarSprintsLoop_termina config hcap fuel
    have := encherSprint_resto_lt config.sprints.capacidade_pontos n t ts [] 0 hcap
    simp only [List.length_cons] at h
    omega

theorem organizarSprintsLoop_inv (config : Config) (Q : Sprint → Prop)
    (hQ : ∀ (n : Nat) (tarefas : List Tarefa),
      Q (criarSprint config n
        (encherSprint config.sprints.capacidade_pontos n tarefas [] 0).1
        (encherSprint config.sprints.capacidade_pontos n tarefas [] 0).2.1)) :
    ∀ (fuel sprintAtual : Nat) (tarefas : List Tarefa) (sprints r : List Sprint),
      organizarSprintsLoop config fuel sprintAtual tarefas sprints = some r →
      (∀ s ∈ sprints, Q s) → ∀ s ∈ r, Q s
  | fuel, n, [], sprints, r, h, hs => by
    rw [organizarSprintsLoop] at h
    injection h with h
    rw [← h]
    exact hs
  | 0, n, t :: ts, sprints, r, h, hs => by
    rw [organizarSprintsLoop] at h
    exact absurd h (by simp)
  | fuel + 1, n, t :: ts, sprints, r, h, hs => by
    rw [organizarSprintsLoop] at h
    apply organizarSprintsLoop_inv config Q hQ fuel _ _ _ r h
    intro s hmem
    rcases List.mem_append.mp hmem with hmem | hmem
    · exact hs s hmem
    · rw [List.mem_singleton.mp hmem]
      exact hQ n (t :: ts)

end GitProjectUniversal

/-! ## GitHubProjectsAdapter: lemmas on the allocator -/

namespace GitHubProjectsAdapter

theorem foldl_invariante {α β : Type} (f : β → α → β) (P : β → List α → Prop) :
    ∀ (l vistas : List α) (b : β), P b vistas →
      (∀ b vistas a, P b vistas → P (f b a) (vistas ++ [a])) →
      P (l.foldl f b) (vistas ++ l)
  | [], vistas, b, h, _ => by simpa using h
  | a :: l, vistas, b, h, hs => by
    have := foldl_invariante f P l (vistas ++ [a]) (f b a) (hs b vistas a h) hs
    simpa using this

theorem somaPontos_append (l₁ l₂ : List Tarefa) :
    somaPontos (l₁ ++ l₂) = somaPontos l₁ + somaPontos l₂ := by
  simp [somaPontos, List.sum_append]

theorem invariante_passo (config : Config) (e : Estado) (vistas : List Tarefa)
    (t : Tarefa) (h : Invariante config e vistas) :
    Invariante config (passo config e t) (vistas ++ [t]) := by
  obtain ⟨h1, h2, h3, h4⟩ := h
  unfold passo fecharSeCheio
  by_cases hc : e.pontosAtual + t.pontos > config.capacidade_pontos ∧ e.tarefasAtual.length > 0
  · rw [if_pos hc]
    refine ⟨by simp [somaPontos], by simp, ?_, ?_⟩
    · simp only [List.map_append, List.flatten_append, List.map_cons, List.map_nil,
        List.flatten_cons, List.flatten_nil, List.append_nil, finalizarSprint, List.nil_append]
      rw [h3]
    · intro s hs
      rcases List.mem_append.mp hs with hs | hs
      · exact h4 s hs
      · rw [List.mem_singleton.mp hs]
        refine ⟨h1, ?_, h2⟩
        exact List.ne_nil_of_length_pos hc.2
  · rw [if_neg hc]
    refine ⟨?_, ?_, ?_, h4⟩
    · simp only [somaPontos_append, h1]
      simp [somaPontos]
    · intro hlen
      simp only [List.length_append, List.length_singleton] at hlen
      have hpos : e.tarefasAtual.length > 0 := by omega
      by_contra hgt
      exact hc ⟨by simpa using hgt, hpos⟩
    · simp only [← List.append_assoc, h3]

theorem invariante_inicial (config : Config) (agora : Int) :
    Invariante config (estadoInicial agora) [] := by
  refine ⟨by simp [estadoInicial, somaPontos], by simp [estadoInicial],
    by simp [estadoInicial], by simp [estadoInicial]⟩

theorem invariante_final (config : Config) (agora : Int) (l : List Tarefa) :
    Invariante config (l.foldl (passo config) (estadoInicial agora)) l := by
  have := foldl_invariante (passo config) (Invariante config) l [] (estadoInicial agora)
    (invariante_inicial config agora) (fun b v a h => invariante_passo config b v a h)
  simpa using this

/-- The sprints of `organizarSprints`, concatenated, are the sorted tasks;
every sprint is non-empty, carries the sum of its tasks and is within the
capacity when it has more than one task. -/
theorem organizarSprints_spec (config : Config) (agora : Int) (tarefas : List Tarefa) :
    ((organizarSprints config agora tarefas).map (fun s => s.tarefas)).flatten
        = tarefasOrdenadas tarefas
      ∧ ∀ s ∈ organizarSprints config agora tarefas,
          s.pontos = somaPontos s.tarefas ∧ s.tarefas ≠ []
            ∧ (1 < s.tarefas.length → s.pontos ≤ config.capacidade_pontos) := by
  obtain ⟨h1, h2, h3, h4⟩ := invariante_final config agora (tarefasOrdenadas tarefas)
  unfold organizarSprints fecharUltimo
  split
  · next hpos =>
    refine ⟨?_, ?_⟩
    · simp only [List.map_append, List.flatten_append, List.map_cons, List.map_nil,
        List.flatten_cons, List.flatten_nil, List.append_nil, finalizarSprint]
      exact h3
    · intro s hs
      rcases List.mem_append.mp hs with hs | hs
      · exact h4 s hs
      · rw [List.mem_singleton.mp hs]
        exact ⟨h1, List.ne_nil_of_length_pos hpos, h2⟩
  · next hpos =>
    have hnil : (List.foldl (passo config) (estadoInicial agora)
        (tarefasOrdenadas tarefas)).tarefasAtual = [] := by
      apply List.eq_nil_of_length_eq_zero
      omega
    rw [hnil, List.append_nil] at h3
    exact ⟨h3, h4⟩

theorem datas_passo (config : Config) (e : Estado) (t : Tarefa)
    (h1 : e.sprints.Chain' (fun a b => b.dataInicio = a.dataFim))
    (h2 : ∀ s ∈ e.sprints.getLast?, s.dataFim = isoDate e.dataInicio) :
    (passo config e t).sprints.Chain' (fun a b => b.dataInicio = a.dataFim)
      ∧ ∀ s ∈ (passo config e t).sprints.getLast?,
          s.dataFim = isoDate (passo config e t).dataInicio := by
  unfold passo fecharSeCheio
  split
  · refine ⟨?_, ?_⟩
    · simp only [List.chain'_append, List.chain'_singleton, true_and]
      refine ⟨h1, ?_⟩
      intro x hx y hy
      simp only [List.head?_cons, Option.mem_def, Option.some.injEq] at hy
      rw [← hy]
      exact (h2 x hx).symm
    · intro s hs
      simp only [List.getLast?_append, List.getLast?_singleton, Option.mem_def] at hs
      have hs2 : some (finalizarSprint e.sprintAtual e.tarefasAtual e.pontosAtual
          e.dataInicio config.duracao_dias) = some s := hs
      injection hs2 with hs2
      rw [← hs2]
      rfl
  · exact ⟨h1, h2⟩

theorem datas_foldl (config : Config) :
    ∀ (l : List Tarefa) (e : Estado),
      e.sprints.Chain' (fun a b => b.dataInicio = a.dataFim) →
      (∀ s ∈ e.sprints.getLast?, s.dataFim = isoDate e.dataInicio) →
      (l.foldl (passo config) e).sprints.Chain' (fun a b => b.dataInicio = a.dataFim)
        ∧ ∀ s ∈ (l.foldl (passo config) e).sprints.getLast?,
            s.dataFim = isoDate (l.foldl (passo config) e).dataInicio
  | [], e, h1, h2 => ⟨h1, h2⟩
  | t :: l, e, h1, h2 => by
    obtain ⟨h3, h4⟩ := datas_passo config e t h1 h2
    exact datas_foldl config l (passo config e t) h3 h4

/-- In every run of `organizarSprints`, each sprint after the first starts on
the calendar day on which the previous sprint ends. -/
theorem organizarSprints_datas_encadeadas (config : Config) (agora : Int)
    (tarefas : List Tarefa) :
    (organizarSprints config agora tarefas).Chain'
      (fun a b => b.dataInicio = a.dataFim) := by
  obtain ⟨h1, h2⟩ := datas_foldl config (tarefasOrdenadas tarefas) (estadoInicial agora)
    (by simp [estadoInicial]) (by simp [estadoInicial])
  unfold organizarSprints fecharUltimo
  split
  · simp only [List.chain'_append, List.chain'_singleton, true_and]
    refine ⟨h1, ?_⟩
    intro x hx y hy
    simp only [List.head?_cons, Option.mem_def, Option.some.injEq] at hy
    rw [← hy]
    exact (h2 x hx).symm
  · exact h1

theorem tarefasOrdenadas_estavel (tarefas : List Tarefa) (r : Nat) :
    (tarefasOrdenadas tarefas).filter (fun t => decide (rank t = r))
      = tarefas.filter (fun t => decide (rank t = r)) := by
  have hpw : (tarefas.filter (fun t => decide (rank t = r))).Pairwise
      (fun a b => rank a ≥ rank b) := by
    rw [List.pairwise_iff_forall_sublist]
    intro a b hab
    have ha := (List.mem_filter.mp (hab.subset (List.mem_cons_self _ _))).2
    have hb := (List.mem_filter.mp
      (hab.subset (List.mem_cons_of_mem _ (List.mem_singleton_self _)))).2
    simp only [decide_eq_true_eq] at ha hb
    omega
  have hsub : (tarefas.filter (fun t => decide (rank t = r))).Sublist
      (tarefasOrdenadas tarefas) :=
    List.sublist_insertionSort hpw (List.filter_sublist _)
  have hsub2 := hsub.filter (fun t => decide (rank t = r))
  rw [List.filter_filter] at hsub2
  simp only [Bool.and_self] at hsub2
  have hlen := ((List.perm_insertionSort (fun a b => rank a ≥ rank b) tarefas).filter
    (fun t => decide (rank t = r))).length_eq
  exact (hsub2.eq_of_length hlen.symm).symm

theorem tarefasOrdenadas_sorted (tarefas : List Tarefa) :
    (tarefasOrdenadas tarefas).Pairwise (fun a b => rank a ≥ rank b) := by
  haveI : IsTotal Tarefa (fun a b => rank a ≥ rank b) := ⟨fun a b => Nat.le_total _ _⟩
  haveI : IsTrans Tarefa (fun a b => rank a ≥ rank b) :=
    ⟨fun a b c hab hbc => Nat.le_trans hbc hab⟩
  exact List.sorted_insertionSort _ tarefas

end GitHubProjectsAdapter

/-! ## Story points (C1, C2), the round-trip scenario (C3) and task placement (C4) -/

namespace GitProjectUniversal

/-- C1: for a non-empty scale of positive integers, a positive number of hours
per point and adjustments defined for alta, media and baixa, `calcularPontos`
returns, for every duration text and every priority text, a number that is a
member of the scale and at least 1. -/
theorem calcularPontos_mem_escala (config : Config) (duracao prioridade : List Char)
    (hne : config.pontuacao.fibonacci ≠ [])
    (hpos : ∀ f ∈ config.pontuacao.fibonacci, 0 < f)
    (_hhpp : 0 < config.pontuacao.horas_por_ponto)
    (halta : (config.pontuacao.ajuste_prioridade "alta").isSome)
    (hmedia : (config.pontuacao.ajuste_prioridade "media").isSome)
    (hbaixa : (config.pontuacao.ajuste_prioridade "baixa").isSome) :
    ∃ p, calcularPontos config duracao prioridade = some p
      ∧ p ∈ config.pontuacao.fibonacci ∧ 1 ≤ p := by
  have hlast : ∃ p, config.pontuacao.fibonacci.getLast? = some p
      ∧ p ∈ config.pontuacao.fibonacci ∧ 1 ≤ p := by
    refine ⟨_, List.getLast?_eq_getLast _ hne, List.getLast_mem hne, ?_⟩
    exact hpos _ (List.getLast_mem hne)
  have hadj : ∃ a, config.pontuacao.ajuste_prioridade (processarPrioridade prioridade)
      = some a := by
    rcases processarPrioridade_cases prioridade with h | h | h <;> rw [h]
    · exact Option.isSome_iff_exists.mp halta
    · exact Option.isSome_iff_exists.mp hmedia
    · exact Option.isSome_iff_exists.mp hbaixa
  obtain ⟨a, ha⟩ := hadj
  unfold calcularPontos
  simp only [ha]
  split
  · next f hf =>
    have hmem := List.mem_of_find?_eq_some hf
    have hf0 : f ≠ 0 := (hpos f hmem).ne.symm
    rw [if_neg hf0]
    exact ⟨f, rfl, hmem, hpos f hmem⟩
  · exact hlast

/-- Witness of C1 on the configuration of the examples. -/
theorem calcularPontos_mem_escala_witness :
    ∃ p, calcularPontos configExemplo "40h".toList "Alta".toList = some p
      ∧ p ∈ configExemplo.pontuacao.fibonacci ∧ 1 ≤ p :=
  calcularPontos_mem_escala configExemplo "40h".toList "Alta".toList
    (by decide) (by decide) (by decide) (by decide) (by decide) (by decide)

/-- C2: for every priority text whose level has the adjustment `ajuste` and
every ascending non-empty scale, `calcularPontos` equals the reference
definition, the smallest scale value at least
`max(1, ceil(h / hoursPerPoint) + ajuste)` or the largest scale value when
there is none: for every duration text, with `h` the hours read from it, and
in particular for the text of any number `h` followed by the unit letter. -/
theorem calcularPontos_eq_referencia (config : Config) (prioridade : List Char)
    (ajuste : Int)
    (hasc : config.pontuacao.fibonacci.Sorted (· ≤ ·))
    (hne : config.pontuacao.fibonacci ≠ [])
    (hhpp : 0 < config.pontuacao.horas_por_ponto)
    (hadj : config.pontuacao.ajuste_prioridade (processarPrioridade prioridade)
      = some ajuste) :
    (∀ duracao : List Char, calcularPontos config duracao prioridade
      = pontosReferencia config.pontuacao.fibonacci config.pontuacao.horas_por_ponto
          ajuste (horasDe duracao))
    ∧ ∀ h : Nat, calcularPontos config (Nat.toDigits 10 h ++ ['h']) prioridade
      = pontosReferencia config.pontuacao.fibonacci config.pontuacao.horas_por_ponto
          ajuste h := by
  have key : ∀ duracao : List Char, calcularPontos config duracao prioridade
      = pontosReferencia config.pontuacao.fibonacci config.pontuacao.horas_por_ponto
          ajuste (horasDe duracao) := by
    intro duracao
    unfold calcularPontos pontosReferencia
    simp only [hadj, JS.ceilDiv_eq_ceil _ _ hhpp, Int.cast_natCast]
    have ha : 1 ≤ max 1
        (⌈((horasDe duracao : ℕ) : ℚ) / (config.pontuacao.horas_por_ponto : ℚ)⌉
          + ajuste) := le_max_left _ _
    generalize max 1
      (⌈((horasDe duracao : ℕ) : ℚ) / (config.pontuacao.horas_por_ponto : ℚ)⌉
        + ajuste) = a at *
    obtain ⟨m, hm⟩ : ∃ m, config.pontuacao.fibonacci.getLast? = some m :=
      ⟨_, List.getLast?_eq_getLast _ hne⟩
    have hmax : config.pontuacao.fibonacci.max? = some m :=
      int_max?_eq_some_iff.mpr
        ⟨List.mem_of_getLast?_eq_some hm, sorted_getLast_max _ m hasc hm⟩
    cases hfind : config.pontuacao.fibonacci.find? (fun f => decide (f ≥ a)) with
    | none =>
      have hfil : config.pontuacao.fibonacci.filter (fun f => decide (a ≤ f)) = [] := by
        rw [List.filter_eq_nil_iff]
        intro x hx
        simpa using List.find?_eq_none.mp hfind x hx
      simp only [hfil, List.min?_nil, hm, hmax]
    | some f =>
      obtain ⟨h1, h2, h3⟩ := find_ge_first a _ f hasc hfind
      have hmin : (config.pontuacao.fibonacci.filter (fun f => decide (a ≤ f))).min?
          = some f := by
        rw [int_min?_eq_some_iff]
        refine ⟨List.mem_filter.mpr ⟨h1, by simpa using h2⟩, ?_⟩
        intro b hb
        have hb2 := List.mem_filter.mp hb
        exact h3 b hb2.1 (by simpa using hb2.2)
      have hf0 : f ≠ 0 := by omega
      simp only [hmin, if_neg hf0]
  refine ⟨key, ?_⟩
  intro h
  rw [key, horasDe_decimal]

/-- Witness of C2: the example of the specification, 40 hours at high
priority on the scale 1, 2, 3, 5, 8, gives 8. -/
theorem calcularPontos_eq_referencia_witness :
    calcularPontos configExemplo "40h".toList "Alta".toList
        = pontosReferencia [1, 2, 3, 5, 8] 4 1 40
      ∧ calcularPontos configExemplo "40h".toList "Alta".toList = some 8 :=
  ⟨(calcularPontos_eq_referencia configExemplo "Alta".toList 1
    (by decide) (by decide) (by decide) (by decide)).1 "40h".toList, by decide⟩

/-- C3, as stated, fails: on the table of the round-trip scenario the parser
does not give the points 3, 2, 1, and no run of the allocator gives sprint 1
with T001 and T002 and sprint 2 with T003. -/
theorem roundtrip_counterexample :
    ¬ ((todasTarefas (extrairTarefas configExemplo tabelaExemplo)).map (fun t => t.pontos)
        = [some 3, some 2, some 1])
      ∧ ¬ ∃ fuel sprints,
          organizarSprints configExemplo fuel (extrairTarefas configExemplo tabelaExemplo)
            = some sprints
          ∧ sprints.map (fun s => (s.numero, s.tarefas.map (fun t => t.id)))
            = [(1, ["T001", "T002"]), (2, ["T003"])] := by
  refine ⟨by decide, ?_⟩
  rintro ⟨fuel, sprints, h, hs⟩
  have h1 : (organizarSprints configExemplo 1
      (extrairTarefas configExemplo tabelaExemplo)).map
        (fun l => l.map (fun s => (s.numero, s.tarefas.map (fun t => t.id))))
      = some [(1, ["T001", "T002", "T003"])] := by decide
  cases h2 : organizarSprints configExemplo 1
      (extrairTarefas configExemplo tabelaExemplo) with
  | none => rw [h2] at h1; simp at h1
  | some r =>
    rw [h2] at h1
    have h3 := organizarSprintsLoop_mono configExemplo fuel 1 _ [] sprints h 1
    have h4 := organizarSprintsLoop_mono configExemplo 1 1 _ [] r h2 fuel
    rw [Nat.add_comm] at h4
    rw [h3] at h4
    injection h4 with h4
    subst h4
    rw [Option.map_some', Option.some.injEq] at h1
    rw [h1] at hs
    exact absurd hs (by decide)

/-- C3, amended: on the table of the round-trip scenario the parser gives
three tasks T001, T002, T003 with the points 2, 2, 1, and the allocator, for
any positive number of passes allowed, ends with the single sprint 1 holding
T001, T002 and T003 with total 5. -/
theorem roundtrip_amended :
    (todasTarefas (extrairTarefas configExemplo tabelaExemplo)).map (fun t => t.id)
        = ["T001", "T002", "T003"]
      ∧ (todasTarefas (extrairTarefas configExemplo tabelaExemplo)).map (fun t => t.pontos)
        = [some 2, some 2, some 1]
      ∧ ∀ fuel, ∃ sprints,
          organizarSprints configExemplo (fuel + 1)
            (extrairTarefas configExemplo tabelaExemplo) = some sprints
          ∧ sprints.map (fun s => (s.numero, s.tarefas.map (fun t => t.id), s.pontos))
            = [(1, ["T001", "T002", "T003"], 5)] := by
  refine ⟨by decide, by decide, ?_⟩
  intro fuel
  have h1 : (organizarSprints configExemplo 1
      (extrairTarefas configExemplo tabelaExemplo)).map
        (fun l => l.map (fun s => (s.numero, s.tarefas.map (fun t => t.id), s.pontos)))
      = some [(1, ["T001", "T002", "T003"], 5)] := by decide
  cases h : organizarSprints configExemplo 1 (extrairTarefas configExemplo tabelaExemplo) with
  | none => rw [h] at h1; simp at h1
  | some sprints =>
    rw [h] at h1
    refine ⟨sprints, ?_, by simpa using h1⟩
    have h2 := organizarSprintsLoop_mono configExemplo 1 1 _ [] sprints h fuel
    rw [Nat.add_comm] at h2
    exact h2

/-- C4, evaluation at the failing inputs: with capacity 5 and tasks of 3, 3 and
2 points, `organizarSprints` ends with the single sprint 1 holding T001 and
T003, so T002 is in no sprint; and with tasks of 2 and 8 points it ends with
the single sprint 1 holding T001, so the task of 8 points is in no sprint. -/
theorem organizarSprints_descarta_tarefa :
    (organizarSprints configExemplo 3
        (cronogramaDe [tarefaExemplo "T001" 3, tarefaExemplo "T002" 3,
          tarefaExemplo "T003" 2])).map
          (fun l => l.map (fun s => (s.numero, s.tarefas.map (fun t => t.id), s.pontos)))
        = some [(1, ["T001", "T003"], 5)]
      ∧ (organizarSprints configExemplo 2
        (cronogramaDe [tarefaExemplo "T001" 2, tarefaExemplo "T002" 8])).map
          (fun l => l.map (fun s => (s.numero, s.tarefas.map (fun t => t.id), s.pontos)))
        = some [(1, ["T001"], 2)] := by
  constructor <;> decide

end GitProjectUniversal

/-! ## Capacity of the sprints (C5) -/

/-- C5: in both allocators every emitted sprint with more than one task has
`pontos` within the capacity, and a sprint of exactly one task exceeds the
capacity only if the points of that task exceed it.  This holds for every
task list and every capacity; for a positive capacity the loop of
`GitProjectUniversal.organizarSprints` ends within as many passes as there are
tasks. -/
theorem sprints_dentro_da_capacidade :
    (∀ (config : GitHubProjectsAdapter.Config) (agora : Int)
        (tarefas : List GitHubProjectsAdapter.Tarefa),
        ∀ s ∈ GitHubProjectsAdapter.organizarSprints config agora tarefas,
          (1 < s.tarefas.length → s.pontos ≤ config.capacidade_pontos)
            ∧ ∀ t, s.tarefas = [t] → s.pontos > config.capacidade_pontos →
                t.pontos > config.capacidade_pontos)
      ∧ (∀ (config : GitProjectUniversal.Config) (fuel : Nat)
          (cronograma : GitProjectUniversal.Cronograma)
          (sprints : List GitProjectUniversal.Sprint),
          GitProjectUniversal.organizarSprints config fuel cronograma = some sprints →
          ∀ s ∈ sprints,
            (1 < s.tarefas.length → s.pontos ≤ config.sprints.capacidade_pontos)
              ∧ ∀ t, s.tarefas = [t] → s.pontos > config.sprints.capacidade_pontos →
                  ∃ p, t.pontos = some p ∧ p > config.sprints.capacidade_pontos)
      ∧ (∀ (config : GitProjectUniversal.Config)
          (cronograma : GitProjectUniversal.Cronograma),
          0 < config.sprints.capacidade_pontos →
          ∃ sprints, GitProjectUniversal.organizarSprints config
            (GitProjectUniversal.todasTarefas cronograma).length cronograma
              = some sprints) := by
  refine ⟨?_, ?_, ?_⟩
  · intro config agora tarefas s hs
    obtain ⟨h1, _, h3⟩ := (GitHubProjectsAdapter.organizarSprints_spec config agora tarefas).2 s hs
    refine ⟨h3, ?_⟩
    intro t ht hgt
    rw [h1, ht] at hgt
    simpa [GitHubProjectsAdapter.somaPontos] using hgt
  · intro config fuel cronograma sprints h s hs
    have hQ := GitProjectUniversal.organizarSprintsLoop_inv config
      (fun s => s.tarefas ≠ [] → s.pontos ≤ config.sprints.capacidade_pontos)
      (fun n tarefas =>
        (GitProjectUniversal.encherSprint_soma config.sprints.capacidade_pontos n tarefas [] 0
          ⟨[], rfl, rfl⟩ (fun hne => absurd rfl hne)).2)
      fuel 1 _ [] sprints h (by simp) s hs
    refine ⟨fun hlen => hQ ?_, ?_⟩
    · intro hnil
      rw [hnil] at hlen
      simp at hlen
    · intro t ht hgt
      have := hQ (by simp [ht])
      omega
  · intro config cronograma hcap
    exact GitProjectUniversal.organizarSprintsLoop_termina config hcap _ 1 _ [] (le_refl _)

/-- Witness of C5: the adapter on tasks of 3, 3 and 8 points, where the task of
8 points is alone in a sprint, and the universal planner on tasks of 3, 3 and
2 points, both with capacity 5. -/
theorem sprints_dentro_da_capacidade_witness :
    (∀ s ∈ GitHubProjectsAdapter.organizarSprints { capacidade_pontos := 5, duracao_dias := 14 } 0
        [GitHubProjectsAdapter.tarefaAdapter "T001" 3 "🟢 Baixa",
          GitHubProjectsAdapter.tarefaAdapter "T002" 3 "🔴 Alta",
          GitHubProjectsAdapter.tarefaAdapter "T003" 8 "🔴 Alta"],
        (1 < s.tarefas.length → s.pontos ≤ 5)
          ∧ ∀ t, s.tarefas = [t] → s.pontos > 5 → t.pontos > 5)
      ∧ (∃ sprints, GitProjectUniversal.organizarSprints GitProjectUniversal.configExemplo 3
          (GitProjectUniversal.cronogramaDe
            [GitProjectUniversal.tarefaExemplo "T001" 3,
              GitProjectUniversal.tarefaExemplo "T002" 3,
              GitProjectUniversal.tarefaExemplo "T003" 2]) = some sprints
          ∧ ∀ s ∈ sprints, 1 < s.tarefas.length → s.pontos ≤ 5) := by
  refine ⟨sprints_dentro_da_capacidade.1 _ 0 _, ?_⟩
  obtain ⟨sprints, h⟩ := sprints_dentro_da_capacidade.2.2 GitProjectUniversal.configExemplo
    (GitProjectUniversal.cronogramaDe
      [GitProjectUniversal.tarefaExemplo "T001" 3,
        GitProjectUniversal.tarefaExemplo "T002" 3,
        GitProjectUniversal.tarefaExemplo "T003" 2]) (by decide)
  exact ⟨sprints, h, fun s hs => (sprints_dentro_da_capacidade.2.1 _ _ _ sprints h s hs).1⟩

/-! ## Order of the tasks in the sprints of the adapter (C6) -/

namespace GitHubProjectsAdapter

/-- The rank of a task is 3 when its priority text has the marker 🔴, 2 when it
has 🟡 and not 🔴, and 1 otherwise; so the three texts that `mapearPrioridade`
gives are ranked High 3, Medium 2, Low 1. -/
theorem rank_spec (t : Tarefa) :
    (JS.includes t.prioridade "🔴".toList = true → rank t = 3)
      ∧ (JS.includes t.prioridade "🔴".toList = false →
          JS.includes t.prioridade "🟡".toList = true → rank t = 2)
      ∧ (JS.includes t.prioridade "🔴".toList = false →
          JS.includes t.prioridade "🟡".toList = false → rank t = 1)
      ∧ rank (tarefaAdapter "T" 1 "🔴 Alta") = 3
      ∧ rank (tarefaAdapter "T" 1 "🟡 Média") = 2
      ∧ rank (tarefaAdapter "T" 1 "🟢 Baixa") = 1 := by
  refine ⟨?_, ?_, ?_, by decide, by decide, by decide⟩
  · intro h
    unfold rank
    rw [h]
    rfl
  · intro h1 h2
    unfold rank
    rw [h1, h2]
    rfl
  · intro h1 h2
    unfold rank
    rw [h1, h2]
    rfl

/-- For tasks whose priorities are texts: the task lists of the sprints of
`organizarSprints`, concatenated in sprint order, are the input tasks stably
sorted by descending priority rank: the concatenation is the sorted array, it
is a permutation of the input, no task precedes one of higher rank, and the
tasks of each rank keep their input order. -/
theorem organizarSprints_concatena_ordenadas (config : Config) (agora : Int)
    (tarefas : List Tarefa) :
    ((organizarSprints config agora tarefas).map (fun s => s.tarefas)).flatten
        = tarefasOrdenadas tarefas
      ∧ (((organizarSprints config agora tarefas).map (fun s => s.tarefas)).flatten).Perm
          tarefas
      ∧ (((organizarSprints config agora tarefas).map (fun s => s.tarefas)).flatten).Pairwise
          (fun a b => rank a ≥ rank b)
      ∧ ∀ r : Nat,
          (((organizarSprints config agora tarefas).map (fun s => s.tarefas)).flatten).filter
              (fun t => decide (rank t = r))
            = tarefas.filter (fun t => decide (rank t = r)) := by
  rw [(organizarSprints_spec config agora tarefas).1]
  exact ⟨rfl, List.perm_insertionSort _ tarefas, tarefasOrdenadas_sorted tarefas,
    tarefasOrdenadas_estavel tarefas⟩

/-- For tasks whose priorities are texts, in terms of the markers alone: in the
concatenation of the sprints a task with 🔴 is never preceded by a task without
it, and a task with 🟡 is never preceded by a task that has neither marker; the
tasks with 🔴 keep their input order, and so do the tasks with 🟡 and not 🔴,
and the tasks with neither. -/
theorem organizarSprints_marcadores (config : Config) (agora : Int)
    (tarefas : List Tarefa) :
    (((organizarSprints config agora tarefas).map (fun s => s.tarefas)).flatten).Pairwise
        (fun a b =>
          (JS.includes b.prioridade "🔴".toList = true →
            JS.includes a.prioridade "🔴".toList = true)
          ∧ (JS.includes b.prioridade "🟡".toList = true →
            JS.includes a.prioridade "🔴".toList = true
              ∨ JS.includes a.prioridade "🟡".toList = true))
      ∧ (((organizarSprints config agora tarefas).map (fun s => s.tarefas)).flatten).filter
            (fun t => JS.includes t.prioridade "🔴".toList)
          = tarefas.filter (fun t => JS.includes t.prioridade "🔴".toList)
      ∧ (((organizarSprints config agora tarefas).map (fun s => s.tarefas)).flatten).filter
            (fun t => !JS.includes t.prioridade "🔴".toList
              && JS.includes t.prioridade "🟡".toList)
          = tarefas.filter (fun t => !JS.includes t.prioridade "🔴".toList
              && JS.includes t.prioridade "🟡".toList)
      ∧ (((organizarSprints config agora tarefas).map (fun s => s.tarefas)).flatten).filter
            (fun t => !JS.includes t.prioridade "🔴".toList
              && !JS.includes t.prioridade "🟡".toList)
          = tarefas.filter (fun t => !JS.includes t.prioridade "🔴".toList
              && !JS.includes t.prioridade "🟡".toList) := by
  have hr3 : ∀ t : Tarefa, decide (rank t = 3) = JS.includes t.prioridade "🔴".toList := by
    intro t
    unfold rank
    cases JS.includes t.prioridade "🔴".toList <;>
      cases JS.includes t.prioridade "🟡".toList <;> rfl
  have hr2 : ∀ t : Tarefa, decide (rank t = 2)
      = (!JS.includes t.prioridade "🔴".toList && JS.includes t.prioridade "🟡".toList) := by
    intro t
    unfold rank
    cases JS.includes t.prioridade "🔴".toList <;>
      cases JS.includes t.prioridade "🟡".toList <;> rfl
  have hr1 : ∀ t : Tarefa, decide (rank t = 1)
      = (!JS.includes t.prioridade "🔴".toList && !JS.includes t.prioridade "🟡".toList) := by
    intro t
    unfold rank
    cases JS.includes t.prioridade "🔴".toList <;>
      cases JS.includes t.prioridade "🟡".toList <;> rfl
  obtain ⟨_, _, hsort, hest⟩ := organizarSprints_concatena_ordenadas config agora tarefas
  refine ⟨?_, ?_, ?_, ?_⟩
  · refine hsort.imp ?_
    intro a b hab
    have ha := hr3 a
    have hb := hr3 b
    have ha2 := hr2 a
    have hb2 := hr2 b
    unfold rank at hab ha hb ha2 hb2
    revert hab ha hb ha2 hb2
    cases JS.includes a.prioridade "🔴".toList <;>
      cases JS.includes a.prioridade "🟡".toList <;>
      cases JS.includes b.prioridade "🔴".toList <;>
      cases JS.includes b.prioridade "🟡".toList <;> simp
  · have := hest 3
    simpa only [hr3] using this
  · have := hest 2
    simpa only [hr2] using this
  · have := hest 1
    simpa only [hr1] using this

/-- The order on four tasks given as low, high, medium, high, with capacity 5:
the sprints hold T002 and T004, then T003 and T001. -/
theorem organizarSprints_tarefasMistas :
    (organizarSprints { capacidade_pontos := 5, duracao_dias := 14 } 0 tarefasMistas).map
        (fun s => (s.numero, s.tarefas.map (fun t => t.id), s.pontos))
      = [(1, ["T002", "T004"], 4), (2, ["T003", "T001"], 4)] := by
  decide

/-- C6, evaluation at the failing input: on the schedule whose second priority
cell is `constructor`, `carregarCronograma` leaves two tasks, the second with a
`prioridade` that is not a text, and the sort of `organizarSprints` throws, so
no sprint is emitted and the two tasks are in no sprint. -/
theorem organizarSprints_prioridade_herdada :
    (carregarCronograma documentoHerdado).map
        (fun t => (t.id, t.prioridade.map String.mk))
      = [("T001", some "🔴 Alta"), ("T002", none)]
      ∧ tarefasOrdenadasLidas (carregarCronograma documentoHerdado) = none := by
  constructor <;> decide

end GitHubProjectsAdapter

/-! ## The points given by the parser of the adapter -/

namespace GitHubProjectsAdapter

/-- The parser of the adapter uses the duration as the points (line 193): the
row of 7 hours gets 7 points, whatever the point scale. -/
theorem carregarCronograma_pontos_duracao :
    (carregarCronograma "| 1 | Tarefa longa | 7h | E | Alta |".toList).map
        (fun t => (t.id, t.duracao, t.pontos)) = [("T001", 7, 7)] := by
  decide

end GitHubProjectsAdapter

/-! ## Empty sprints (C7) -/

namespace GitProjectUniversal

/-- C7, evaluation at the failing input: with capacity 5 and the single task
T001 of 8 points, `organizarSprints` ends with one sprint, whose task list is
empty. -/
theorem organizarSprints_sprint_vazio :
    (organizarSprints configExemplo 1 (cronogramaDe [tarefaExemplo "T001" 8])).map
        (fun l => l.map (fun s => (s.numero, s.tarefas, s.pontos)))
      = some [(1, [], 0)] := by
  decide

end GitProjectUniversal

/-! ## Total points of a sprint (C8) -/

/-- C8: in both allocators the `pontos` field of every emitted sprint is the
sum of the points of the tasks of its task list (in the universal planner the
points of these tasks are all defined).  For a positive capacity the loop of
`GitProjectUniversal.organizarSprints` ends within as many passes as there are
tasks. -/
theorem sprint_pontos_eq_soma :
    (∀ (config : GitHubProjectsAdapter.Config) (agora : Int)
        (tarefas : List GitHubProjectsAdapter.Tarefa),
        ∀ s ∈ GitHubProjectsAdapter.organizarSprints config agora tarefas,
          s.pontos = (s.tarefas.map (fun t => t.pontos)).sum)
      ∧ (∀ (config : GitProjectUniversal.Config) (fuel : Nat)
          (cronograma : GitProjectUniversal.Cronograma)
          (sprints : List GitProjectUniversal.Sprint),
          GitProjectUniversal.organizarSprints config fuel cronograma = some sprints →
          ∀ s ∈ sprints, ∃ ps : List Int,
            s.tarefas.map (fun t => t.pontos) = ps.map some ∧ s.pontos = ps.sum)
      ∧ (∀ (config : GitProjectUniversal.Config)
          (cronograma : GitProjectUniversal.Cronograma),
          0 < config.sprints.capacidade_pontos →
          ∃ sprints, GitProjectUniversal.organizarSprints config
            (GitProjectUniversal.todasTarefas cronograma).length cronograma
              = some sprints) := by
  refine ⟨?_, ?_, ?_⟩
  · intro config agora tarefas s hs
    exact ((GitHubProjectsAdapter.organizarSprints_spec config agora tarefas).2 s hs).1
  · intro config fuel cronograma sprints h s hs
    exact GitProjectUniversal.organizarSprintsLoop_inv config
      (fun s => GitProjectUniversal.SomaDosPontos s.tarefas s.pontos)
      (fun n tarefas =>
        (GitProjectUniversal.encherSprint_soma config.sprints.capacidade_pontos n tarefas [] 0
          ⟨[], rfl, rfl⟩ (fun hne => absurd rfl hne)).1)
      fuel 1 _ [] sprints h (by simp) s hs
  · intro config cronograma hcap
    exact GitProjectUniversal.organizarSprintsLoop_termina config hcap _ 1 _ [] (le_refl _)

/-- Witness of C8: the universal planner on tasks of 3, 3 and 2 points with
capacity 5. -/
theorem sprint_pontos_eq_soma_witness :
    ∃ sprints, GitProjectUniversal.organizarSprints GitProjectUniversal.configExemplo 3
        (GitProjectUniversal.cronogramaDe
          [GitProjectUniversal.tarefaExemplo "T001" 3,
            GitProjectUniversal.tarefaExemplo "T002" 3,
            GitProjectUniversal.tarefaExemplo "T003" 2]) = some sprints
      ∧ ∀ s ∈ sprints, ∃ ps : List Int,
          s.tarefas.map (fun t => t.pontos) = ps.map some ∧ s.pontos = ps.sum := by
  obtain ⟨sprints, h⟩ := sprint_pontos_eq_soma.2.2 GitProjectUniversal.configExemplo
    (GitProjectUniversal.cronogramaDe
      [GitProjectUniversal.tarefaExemplo "T001" 3,
        GitProjectUniversal.tarefaExemplo "T002" 3,
        GitProjectUniversal.tarefaExemplo "T003" 2]) (by decide)
  exact ⟨sprints, h, sprint_pontos_eq_soma.2.1 _ _ _ sprints h⟩

/-! ## Date windows (C9, C10) -/

namespace GitProjectUniversal

theorem dataISO_add_dias (t k : Int) : dataISO (t + k * 86400000) = dataISO t + k := by
  unfold dataISO
  rw [Int.fdiv_eq_ediv _ (by decide), Int.fdiv_eq_ediv _ (by decide)]
  exact Int.add_mul_ediv_right t k (by decide)

/-- In a time zone whose offset never changes, `calcularDataSprint` gives
`start(N) = projectStart + (N-1)*d` and `end(N) = start(N) + d - 1` in days, so
that the next window starts on the day after the end of this one. -/
theorem calcularDataSprint_fuso_fixo (config : Config) (c : Int) (N : Int)
    (ho : ∀ t, config.fuso.offset t = c) (hl : ∀ l, config.fuso.offsetLocal l = c) :
    calcularDataSprint config N "inicio"
        = dataISO config.sprints.inicio_projeto + (N - 1) * config.sprints.duracao_dias
      ∧ calcularDataSprint config N "fim"
        = calcularDataSprint config N "inicio" + config.sprints.duracao_dias - 1
      ∧ calcularDataSprint config (N + 1) "inicio"
        = calcularDataSprint config N "fim" + 1 := by
  have hs : ∀ t k, somarDias config.fuso t k = t + k * 86400000 := by
    intro t k
    unfold somarDias
    simp only [ho, hl]
    ring
  have hi : ∀ n : Int, calcularDataSprint config n "inicio"
      = dataISO config.sprints.inicio_projeto + (n - 1) * config.sprints.duracao_dias := by
    intro n
    dsimp only [calcularDataSprint]
    rw [if_neg (by decide)]
    simp only [hs, dataISO_add_dias]
  have hf : ∀ n : Int, calcularDataSprint config n "fim"
      = dataISO config.sprints.inicio_projeto + (n - 1) * config.sprints.duracao_dias
        + (config.sprints.duracao_dias - 1) := by
    intro n
    dsimp only [calcularDataSprint]
    rw [if_pos rfl]
    simp only [hs, dataISO_add_dias]
  refine ⟨hi N, ?_, ?_⟩
  · rw [hf, hi]
    ring
  · rw [hf, hi]
    ring

/-- C9, evaluation at the failing input: in the zone of Lisbon, with the
project start 2025-03-17 (day 20164) and sprints of 14 days, sprint 1 starts on
day 20164 and ends on day 20177, 2025-03-30, and sprint 2 starts on the same
day 20177, not on the day after; day 20177 belongs to both windows. -/
theorem calcularDataSprint_horario_de_verao :
    calcularDataSprint configLisboa 1 "inicio" = 20164
      ∧ calcularDataSprint configLisboa 1 "fim" = 20177
      ∧ calcularDataSprint configLisboa 2 "inicio" = 20177
      ∧ calcularDataSprint configLisboa 2 "fim" = 20190 := by
  decide

end GitProjectUniversal

namespace GitHubProjectsAdapter

/-- C10, evaluation at the failing input: with capacity 5, sprints of 14 days,
two tasks of 3 points and the run started at the epoch, sprint 1 has the
window of days 0 to 14 and sprint 2 the window of days 14 to 28, so day 14
belongs to both windows. -/
theorem organizarSprints_janelas_sobrepostas :
    (organizarSprints { capacidade_pontos := 5, duracao_dias := 14 } 0
        [tarefaAdapter "T001" 3 "🔴 Alta", tarefaAdapter "T002" 3 "🔴 Alta"]).map
        (fun s => (s.numero, s.tarefas.map (fun t => t.id), s.dataInicio, s.dataFim))
      = [(1, ["T001"], 0, 14), (2, ["T002"], 14, 28)] := by
  decide

end GitHubProjectsAdapter

/-! ## The priority classifier (C11, C12) -/

namespace GitProjectUniversal

theorem includes_mem (s needle : List Char) (h : JS.includes s needle = true) :
    ∀ c ∈ needle, c ∈ s := by
  unfold JS.includes at h
  obtain ⟨t, ht, hp⟩ := List.any_eq_true.mp h
  intro c hc
  exact ((List.mem_tails t s).mp ht).subset ((List.isPrefixOf_iff_prefix.mp hp).subset hc)

theorem includes_false_of_char (p needle alvo : List Char) (c : Char) (hc : c ∈ needle)
    (heq : igualSemCaixa p alvo = true)
    (hn : canonicalize c ∉ alvo.map canonicalize) : JS.includes p needle = false := by
  cases h : JS.includes p needle with
  | false => rfl
  | true =>
    have hmem := List.mem_map_of_mem canonicalize (includes_mem p needle h c hc)
    unfold igualSemCaixa at heq
    rw [beq_iff_eq.mp heq] at hmem
    exact absurd hmem hn

theorem processarPrioridade_media_de (p alvo : List Char)
    (heq : igualSemCaixa p alvo = true)
    (h1 : canonicalize '🔴' ∉ alvo.map canonicalize)
    (h2 : ∃ c ∈ "Alta".toList, canonicalize c ∉ alvo.map canonicalize)
    (h3 : canonicalize '🟢' ∉ alvo.map canonicalize)
    (h4 : ∃ c ∈ "Baixa".toList, canonicalize c ∉ alvo.map canonicalize) :
    processarPrioridade p = "media" := by
  have e1 := includes_false_of_char p "🔴".toList alvo '🔴' (by decide) heq h1
  obtain ⟨c2, hc2, hn2⟩ := h2
  have e2 := includes_false_of_char p "Alta".toList alvo c2 hc2 heq hn2
  have e3 := includes_false_of_char p "🟢".toList alvo '🟢' (by decide) heq h3
  obtain ⟨c4, hc4, hn4⟩ := h4
  have e4 := includes_false_of_char p "Baixa".toList alvo c4 hc4 heq hn4
  unfold processarPrioridade
  rw [e1, e2, e3, e4]
  simp

/-- C11, as stated, fails: the texts `alta` and `high` are equal, ignoring
case, to `alta` and `high`, yet they are classified `media`, not `alta`; and
the texts `baixa` and `low` are classified `media`, not `baixa`. -/
theorem processarPrioridade_caixa_counterexample :
    ¬ (∀ p : List Char,
        igualSemCaixa p "alta".toList = true ∨ igualSemCaixa p "high".toList = true →
        processarPrioridade p = "alta")
      ∧ ¬ (∀ p : List Char,
        igualSemCaixa p "baixa".toList = true ∨ igualSemCaixa p "low".toList = true →
        processarPrioridade p = "baixa")
      ∧ processarPrioridade "alta".toList = "media"
      ∧ processarPrioridade "ALTA".toList = "media"
      ∧ processarPrioridade "high".toList = "media"
      ∧ processarPrioridade "baixa".toList = "media"
      ∧ processarPrioridade "low".toList = "media" := by
  refine ⟨?_, ?_, by decide, by decide, by decide, by decide, by decide⟩
  · intro h
    exact absurd (h "alta".toList (Or.inl (by decide))) (by decide)
  · intro h
    exact absurd (h "baixa".toList (Or.inl (by decide))) (by decide)

/-- C11, amended: every text that contains the word `Alta`, in this spelling,
or the marker 🔴 is classified `alta` (so is the text `Alta`); every text equal,
ignoring case, to `média` or `medium` is classified `media`; every text that
contains the word `Baixa`, in this spelling, or the marker 🟢, and none of
`Alta`, `Média`, 🔴, 🟡, is classified `baixa` (so is the text `Baixa`); and
every text equal, ignoring case, to `high` or `low` gets the default
`media`. -/
theorem processarPrioridade_palavras :
    (∀ p : List Char,
        JS.includes p "Alta".toList = true ∨ JS.includes p "🔴".toList = true →
        processarPrioridade p = "alta")
      ∧ processarPrioridade "Alta".toList = "alta"
      ∧ (∀ p : List Char,
        igualSemCaixa p "média".toList = true ∨ igualSemCaixa p "medium".toList = true →
        processarPrioridade p = "media")
      ∧ (∀ p : List Char,
        JS.includes p "Alta".toList = false → JS.includes p "🔴".toList = false →
        JS.includes p "Média".toList = false → JS.includes p "🟡".toList = false →
        JS.includes p "Baixa".toList = true ∨ JS.includes p "🟢".toList = true →
        processarPrioridade p = "baixa")
      ∧ processarPrioridade "Baixa".toList = "baixa"
      ∧ (∀ p : List Char,
        igualSemCaixa p "high".toList = true ∨ igualSemCaixa p "low".toList = true →
        processarPrioridade p = "media") := by
  refine ⟨?_, by decide, ?_, ?_, by decide, ?_⟩
  · intro p h
    unfold processarPrioridade
    rcases h with h | h <;> rw [h] <;> simp
  · intro p h
    rcases h with h | h
    · exact processarPrioridade_media_de p _ h (by decide) ⟨'l', by decide, by decide⟩
        (by decide) ⟨'x', by decide, by decide⟩
    · exact processarPrioridade_media_de p _ h (by decide) ⟨'l', by decide, by decide⟩
        (by decide) ⟨'x', by decide, by decide⟩
  · intro p h1 h2 h3 h4 h
    unfold processarPrioridade
    rcases h with h | h <;> rw [h1, h2, h3, h4, h] <;> simp
  · intro p h
    rcases h with h | h
    · exact processarPrioridade_media_de p _ h (by decide) ⟨'l', by decide, by decide⟩
        (by decide) ⟨'x', by decide, by decide⟩
    · exact processarPrioridade_media_de p _ h (by decide) ⟨'t', by decide, by decide⟩
        (by decide) ⟨'x', by decide, by decide⟩

/-- Witness of C11, amended: the texts `🔴 Alta`, `MÉDIA`, `Medium`, `🟢 Baixa`
and `HIGH`. -/
theorem processarPrioridade_palavras_witness :
    processarPrioridade "🔴 Alta".toList = "alta"
      ∧ processarPrioridade "MÉDIA".toList = "media"
      ∧ processarPrioridade "Medium".toList = "media"
      ∧ processarPrioridade "🟢 Baixa".toList = "baixa"
      ∧ processarPrioridade "HIGH".toList = "media" :=
  ⟨processarPrioridade_palavras.1 _ (Or.inl (by decide)),
    processarPrioridade_palavras.2.2.1 _ (Or.inl (by decide)),
    processarPrioridade_palavras.2.2.1 _ (Or.inr (by decide)),
    processarPrioridade_palavras.2.2.2.1 _ (by decide) (by decide) (by decide) (by decide)
      (Or.inl (by decide)),
    processarPrioridade_palavras.2.2.2.2.2 _ (Or.inl (by decide))⟩

/-- C12: `processarPrioridade` is a total function whose result is one of
`alta`, `media`, `baixa`; a text that contains none of the markers 🔴, 🟡, 🟢 and
none of the words `Alta`, `Média`, `Baixa` is classified `media`; and when the
configuration defines the adjustments of `alta`, `media` and `baixa`, the
lookup of `calcularPontos` is defined for every priority text. -/
theorem processarPrioridade_total :
    (∀ p : List Char, processarPrioridade p = "alta" ∨ processarPrioridade p = "media"
        ∨ processarPrioridade p = "baixa")
      ∧ (∀ p : List Char,
        JS.includes p "🔴".toList = false → JS.includes p "🟡".toList = false →
        JS.includes p "🟢".toList = false → JS.includes p "Alta".toList = false →
        JS.includes p "Média".toList = false → JS.includes p "Baixa".toList = false →
        processarPrioridade p = "media")
      ∧ (∀ (config : Config) (p : List Char),
        (config.pontuacao.ajuste_prioridade "alta").isSome →
        (config.pontuacao.ajuste_prioridade "media").isSome →
        (config.pontuacao.ajuste_prioridade "baixa").isSome →
        (config.pontuacao.ajuste_prioridade (processarPrioridade p)).isSome) := by
  refine ⟨processarPrioridade_cases, ?_, ?_⟩
  · intro p h1 h2 h3 h4 h5 h6
    unfold processarPrioridade
    rw [h1, h2, h3, h4, h5, h6]
    rfl
  · intro config p ha hm hb
    rcases processarPrioridade_cases p with h | h | h <;> rw [h] <;> assumption

/-- Witness of C12: the text `urgente` has no marker and no known word, and its
adjustment is defined in the example configuration. -/
theorem processarPrioridade_total_witness :
    processarPrioridade "urgente".toList = "media"
      ∧ (configExemplo.pontuacao.ajuste_prioridade
          (processarPrioridade "urgente".toList)).isSome :=
  ⟨processarPrioridade_total.2.1 _ (by decide) (by decide) (by decide) (by decide)
      (by decide) (by decide),
    processarPrioridade_total.2.2 configExemplo _ (by decide) (by decide) (by decide)⟩

end GitProjectUniversal

/-! ## The kanban boards (C13) -/

namespace GitProjectUniversal

theorem adicionarAoBacklog_spec (cards : List Card) :
    ∀ cols : List Coluna, (∀ c ∈ cols, c.cards = []) → (∃ c ∈ cols, ehBacklog c = true) →
      ∃ pre b post, adicionarAoBacklog cols cards = pre ++ b :: post
        ∧ ehBacklog b = true ∧ b.cards = cards
        ∧ (∀ c ∈ pre, c.cards = []) ∧ (∀ c ∈ post, c.cards = [])
        ∧ (adicionarAoBacklog cols cards).map (fun c => c.nome) = cols.map (fun c => c.nome)
  | [], _, h => by
    obtain ⟨c, hc, _⟩ := h
    simp at hc
  | c :: cs, hv, h => by
    rw [adicionarAoBacklog]
    by_cases hb : ehBacklog c = true
    · rw [if_pos hb]
      refine ⟨[], { c with cards := c.cards ++ cards }, cs, rfl, hb, ?_, by simp, ?_, rfl⟩
      · simp [hv c (List.mem_cons_self _ _)]
      · intro x hx
        exact hv x (List.mem_cons_of_mem _ hx)
    · rw [if_neg hb]
      have h2 : ∃ x ∈ cs, ehBacklog x = true := by
        obtain ⟨x, hx, hxb⟩ := h
        rcases List.mem_cons.mp hx with rfl | hx
        · exact absurd hxb hb
        · exact ⟨x, hx, hxb⟩
      obtain ⟨pre, b, post, e1, e2, e3, e4, e5, e6⟩ :=
        adicionarAoBacklog_spec cards cs (fun x hx => hv x (List.mem_cons_of_mem _ hx)) h2
      refine ⟨c :: pre, b, post, by rw [e1]; rfl, e2, e3, ?_, e5, by simp [e6]⟩
      intro x hx
      rcases List.mem_cons.mp hx with rfl | hx
      · exact hv _ (List.mem_cons_self _ _)
      · exact e4 x hx

/-- C13: when the column template has a column named `Backlog` or
`📋 Backlog`, the board built for each sprint by `criarQuadrosKanban` keeps the
columns of the template, and its columns are some columns without cards, then a
column with one of the two backlog names that holds exactly one card per task
of the sprint, in the order of the tasks, each card with the identifier
`CARD_` followed by the identifier of the task and with the title, points and
priority of the task, then columns without cards.  So the cards of the whole
board are the cards of the tasks, once each. -/
theorem criarQuadrosKanban_cards (colunas : List ColunaConfig)
    (checklist_padrao : List (List Char)) (sprints : List Sprint)
    (hback : ∃ c ∈ colunas, c.nome = "Backlog".toList ∨ c.nome = "📋 Backlog".toList) :
    List.Forall₂
      (fun (sprint : Sprint) (quadro : Quadro) =>
        quadro.sprint_id = sprint.numero
          ∧ quadro.colunas.map (fun c => c.nome) = colunas.map (fun c => c.nome)
          ∧ (∃ pre b post, quadro.colunas = pre ++ b :: post
              ∧ (b.nome = "Backlog".toList ∨ b.nome = "📋 Backlog".toList)
              ∧ b.cards.map (fun k => (k.id, k.titulo, k.pontos, k.prioridade))
                  = sprint.tarefas.map
                      (fun t => ("CARD_" ++ t.id, t.atividade, t.pontos, t.prioridade))
              ∧ (∀ c ∈ pre, c.cards = []) ∧ (∀ c ∈ post, c.cards = []))
          ∧ ((quadro.colunas.map (fun c => c.cards)).flatten).map
                (fun k => (k.id, k.titulo, k.pontos, k.prioridade))
              = sprint.tarefas.map
                  (fun t => ("CARD_" ++ t.id, t.atividade, t.pontos, t.prioridade)))
      sprints (criarQuadrosKanban colunas checklist_padrao sprints) := by
  unfold criarQuadrosKanban
  rw [List.forall₂_map_right_iff, List.forall₂_same]
  intro sprint _
  have hv : ∀ c ∈ colunas.map (fun col : ColunaConfig =>
      ({ nome := col.nome, cor := col.cor, limite_wip := col.limite_wip, cards := [] }
        : Coluna)), c.cards = [] := by
    intro c hc
    obtain ⟨col, _, rfl⟩ := List.mem_map.mp hc
    rfl
  have hb : ∃ c ∈ colunas.map (fun col : ColunaConfig =>
      ({ nome := col.nome, cor := col.cor, limite_wip := col.limite_wip, cards := [] }
        : Coluna)), ehBacklog c = true := by
    obtain ⟨col, hcol, hn⟩ := hback
    refine ⟨_, List.mem_map_of_mem _ hcol, ?_⟩
    unfold ehBacklog
    rcases hn with hn | hn <;> simp [hn]
  obtain ⟨pre, b, post, e1, e2, e3, e4, e5, e6⟩ :=
    adicionarAoBacklog_spec (sprint.tarefas.map (criarCard checklist_padrao)) _ hv hb
  have hcards : b.cards.map (fun k => (k.id, k.titulo, k.pontos, k.prioridade))
      = sprint.tarefas.map
          (fun t => ("CARD_" ++ t.id, t.atividade, t.pontos, t.prioridade)) := by
    rw [e3, List.map_map]
    rfl
  have hpre : (pre.map (fun c => c.cards)).flatten = [] := by
    rw [List.flatten_eq_nil_iff]
    intro l hl
    obtain ⟨c, hc, rfl⟩ := List.mem_map.mp hl
    exact e4 c hc
  have hpost : (post.map (fun c => c.cards)).flatten = [] := by
    rw [List.flatten_eq_nil_iff]
    intro l hl
    obtain ⟨c, hc, rfl⟩ := List.mem_map.mp hl
    exact e5 c hc
  have hn : b.nome = "Backlog".toList ∨ b.nome = "📋 Backlog".toList := by
    unfold ehBacklog at e2
    simpa using e2
  refine ⟨rfl, ?_, ⟨pre, b, post, e1, hn, hcards, e4, e5⟩, ?_⟩
  · show (adicionarAoBacklog _ _).map (fun c => c.nome) = _
    rw [e6, List.map_map]
    rfl
  · show (((adicionarAoBacklog _ _).map (fun c => c.cards)).flatten).map _ = _
    rw [e1, List.map_append, List.map_cons, List.flatten_append, List.flatten_cons, hpre,
      hpost, List.nil_append, List.append_nil]
    exact hcards

/-- Witness of C13: the board of the example sprint on the example template
holds the cards of T001 and T003, in this order, in the backlog column. -/
theorem criarQuadrosKanban_cards_witness :
    (criarQuadrosKanban colunasExemplo [] [sprintExemplo]).map
        (fun q => q.colunas.map (fun c => (String.mk c.nome, c.cards.map (fun k => k.id))))
      = [[("Ideias", []), ("📋 Backlog", ["CARD_T001", "CARD_T003"]), ("Em Progresso", [])]]
      ∧ ∃ quadro, criarQuadrosKanban colunasExemplo [] [sprintExemplo] = [quadro]
          ∧ ((quadro.colunas.map (fun c => c.cards)).flatten).map
                (fun k => (k.id, k.titulo, k.pontos, k.prioridade))
              = sprintExemplo.tarefas.map
                  (fun t => ("CARD_" ++ t.id, t.atividade, t.pontos, t.prioridade)) := by
  refine ⟨by decide, criarQuadro colunasExemplo [] sprintExemplo, rfl, ?_⟩
  have h := criarQuadrosKanban_cards colunasExemplo [] [sprintExemplo]
    ⟨{ nome := "📋 Backlog".toList, cor := "blue".toList, limite_wip := none },
      by decide, Or.inr rfl⟩
  have h2 : criarQuadrosKanban colunasExemplo [] [sprintExemplo]
      = [criarQuadro colunasExemplo [] sprintExemplo] := rfl
  rw [h2, List.forall₂_cons] at h
  exact h.1.2.2.2

end GitProjectUniversal

/-! ## The duration without the unit letter (C14) -/

namespace GitProjectUniversal

/-- C14, evaluation at the failing input: the duration text `8`, without the
unit letter, is read as the default of 4 hours, while `8h` is read as 8 hours;
with 4 hours per point and medium priority the two texts give 1 and 2
points. -/
theorem calcularPontos_sem_letra :
    horasDe "8".toList = 4 ∧ horasDe "8h".toList = 8
      ∧ calcularPontos configExemplo "8".toList "Média".toList = some 1
      ∧ calcularPontos configExemplo "8h".toList "Média".toList = some 2 := by
  decide

end GitProjectUniversal

/-! ## The identifiers of the tasks (C15) -/

namespace JS

theorem parseDigits_zeros (m : Nat) (ds : List Char) :
    parseDigits (List.replicate m '0' ++ ds) = parseDigits ds := by
  unfold parseDigits
  rw [List.foldl_append]
  have h : List.foldl (fun n c => 10 * n + (c.toNat - 48)) 0 (List.replicate m '0') = 0 := by
    induction m with
    | zero => rfl
    | succ m ih =>
      rw [List.replicate_succ', List.foldl_append, ih]
      rfl
  rw [h]

/-- The padded decimal text of `k` has at least three characters, all digits,
and `parseInt` reads it back as `k`. -/
theorem padStart3_spec (k : Nat) :
    3 ≤ (padStart3 k).length ∧ (∀ c ∈ padStart3 k, isDigit c = true)
      ∧ parseDigits (padStart3 k) = k := by
  obtain ⟨_, h2, h3⟩ := toDigits_decimal k
  unfold padStart3
  refine ⟨?_, ?_, ?_⟩
  · simp only [List.length_append, List.length_replicate]
    omega
  · intro c hc
    rcases List.mem_append.mp hc with hc | hc
    · rw [(List.mem_replicate.mp hc).2]
      decide
    · exact h2 c hc
  · rw [parseDigits_zeros, h3]

end JS

namespace GitProjectUniversal

theorem numeroDoId_idTarefa (k : Nat) : numeroDoId (idTarefa k) = k :=
  (JS.padStart3_spec k).2.2

theorem idTarefa_injective : Function.Injective idTarefa := by
  intro a b h
  have := congrArg numeroDoId h
  rwa [numeroDoId_idTarefa, numeroDoId_idTarefa] at this

theorem ids_range_nodup (s n : Nat) : ((List.range' s n).map idTarefa).Nodup :=
  (List.nodup_range' s n).map idTarefa_injective

theorem ids_range_crescentes (s n : Nat) :
    ((List.range' s n).map idTarefa).Pairwise (fun a b => numeroDoId a < numeroDoId b) := by
  rw [List.pairwise_map]
  simp only [numeroDoId_idTarefa]
  exact List.pairwise_lt_range' s n

theorem lerLinhas_ids (config : Config) (semanaAtual : Nat) :
    ∀ (ls : List Linha) (acc : List Tarefa) (total : Nat),
      (lerLinhas config semanaAtual ls acc total).1.map (fun t => t.id)
          = acc.map (fun t => t.id) ++ (List.range' (total + 1) ls.length).map idTarefa
        ∧ (lerLinhas config semanaAtual ls acc total).2 = total + ls.length
  | [], acc, total => by
    rw [lerLinhas]
    simp
  | l :: ls, acc, total => by
    rw [lerLinhas]
    obtain ⟨h1, h2⟩ := lerLinhas_ids config semanaAtual ls
      (acc ++ [criarTarefa config total semanaAtual l]) (total + 1)
    refine ⟨?_, ?_⟩
    · rw [h1, List.length_cons, List.range'_succ, List.map_append, List.map_cons,
        List.append_assoc]
      rfl
    · rw [h2, List.length_cons]
      omega

theorem todasTarefas_append (semanas : List Semana) (w : Semana) (total total2 : Nat) :
    todasTarefas { semanas := semanas ++ [w], total_tarefas := total2 }
      = todasTarefas { semanas := semanas, total_tarefas := total } ++ w.tarefas := by
  simp [todasTarefas]

theorem lerTabelas_ids (config : Config) :
    ∀ (tabs : List (List Char)) (c : Cronograma) (semanaAtual : Nat),
      (todasTarefas c).map (fun t => t.id) = (List.range' 1 c.total_tarefas).map idTarefa →
      (todasTarefas (lerTabelas config tabs c semanaAtual)).map (fun t => t.id)
        = (List.range' 1 (lerTabelas config tabs c semanaAtual).total_tarefas).map idTarefa
  | [], c, sem, h => by
    rw [lerTabelas]
    exact h
  | corpo :: resto, c, sem, h => by
    rw [lerTabelas]
    obtain ⟨h1, h2⟩ := lerLinhas_ids config sem (linhas 0 corpo) [] c.total_tarefas
    simp only [List.map_nil, List.nil_append] at h1
    have hlen : (lerLinhas config sem (linhas 0 corpo) [] c.total_tarefas).1.length
        = (linhas 0 corpo).length := by
      have := congrArg List.length h1
      simpa using this
    split
    · apply lerTabelas_ids config resto
      have e : List.range' 1 c.total_tarefas
          ++ List.range' (c.total_tarefas + 1) (linhas 0 corpo).length
          = List.range' 1 (c.total_tarefas + (linhas 0 corpo).length) := by
        rw [Nat.add_comm c.total_tarefas 1, List.range'_append_1,
          Nat.add_comm (linhas 0 corpo).length]
      rw [todasTarefas_append _ _ c.total_tarefas, List.map_append, h, h1, h2,
        ← List.map_append, e]
    · next hz =>
      apply lerTabelas_ids config resto
      have h0 : (linhas 0 corpo).length = 0 := by omega
      rw [h2, h0, Nat.add_zero]
      exact h

theorem extrairTarefas_ids (config : Config) (conteudo : List Char) :
    (todasTarefas (extrairTarefas config conteudo)).map (fun t => t.id)
      = (List.range' 1 (todasTarefas (extrairTarefas config conteudo)).length).map
          idTarefa := by
  have h := lerTabelas_ids config (tabelas 0 conteudo) { semanas := [], total_tarefas := 0 }
    1 rfl
  have hlen := congrArg List.length h
  simp only [List.length_map, List.length_range'] at hlen
  unfold extrairTarefas
  rw [hlen]
  exact h

end GitProjectUniversal

namespace GitHubProjectsAdapter

theorem carregarLinhas_ids :
    ∀ (ls : List GitProjectUniversal.Linha) (acc : List TarefaLida) (contador : Nat),
      ∃ m, (carregarLinhas ls acc contador).1.map (fun t => t.id)
        = acc.map (fun t => t.id)
          ++ (List.range' contador m).map GitProjectUniversal.idTarefa
  | [], acc, contador => ⟨0, by rw [carregarLinhas]; simp⟩
  | l :: ls, acc, contador => by
    rw [carregarLinhas]
    split
    · obtain ⟨m, hm⟩ := carregarLinhas_ids ls (acc ++ [criarTarefaLida contador l])
        (contador + 1)
      refine ⟨m + 1, ?_⟩
      rw [hm, List.range'_succ, List.map_append, List.map_cons, List.append_assoc]
      rfl
    · exact carregarLinhas_ids ls acc contador

theorem carregarCronograma_ids (conteudo : List Char) :
    (carregarCronograma conteudo).map (fun t => t.id)
      = (List.range' 1 (carregarCronograma conteudo).length).map
          GitProjectUniversal.idTarefa := by
  obtain ⟨m, hm⟩ := carregarLinhas_ids (linhasTarefa 0 conteudo) [] 1
  simp only [List.map_nil, List.nil_append] at hm
  have hlen := congrArg List.length hm
  simp only [List.length_map, List.length_range'] at hlen
  unfold carregarCronograma
  rw [hlen]
  exact hm

end GitHubProjectsAdapter

/-- C15: in both parsers, for every document, the identifiers of the tasks
produced are, in order, those of the numbers 1, 2, 3, ...: the task number `k`
has the letter `T` followed by `k` in decimal padded with zeros to at least
three digits, whatever the day of its row.  Hence the identifiers are pairwise
distinct and their numbers are strictly increasing. -/
theorem ids_sequenciais :
    (∀ (config : GitProjectUniversal.Config) (conteudo : List Char),
        (GitProjectUniversal.todasTarefas
            (GitProjectUniversal.extrairTarefas config conteudo)).map (fun t => t.id)
          = (List.range' 1 (GitProjectUniversal.todasTarefas
              (GitProjectUniversal.extrairTarefas config conteudo)).length).map
                GitProjectUniversal.idTarefa
        ∧ ((GitProjectUniversal.todasTarefas
            (GitProjectUniversal.extrairTarefas config conteudo)).map (fun t => t.id)).Nodup
        ∧ ((GitProjectUniversal.todasTarefas
            (GitProjectUniversal.extrairTarefas config conteudo)).map
              (fun t => t.id)).Pairwise
            (fun a b => GitProjectUniversal.numeroDoId a < GitProjectUniversal.numeroDoId b))
      ∧ (∀ conteudo : List Char,
        (GitHubProjectsAdapter.carregarCronograma conteudo).map (fun t => t.id)
          = (List.range' 1 (GitHubProjectsAdapter.carregarCronograma conteudo).length).map
              GitProjectUniversal.idTarefa
        ∧ ((GitHubProjectsAdapter.carregarCronograma conteudo).map (fun t => t.id)).Nodup
        ∧ ((GitHubProjectsAdapter.carregarCronograma conteudo).map
              (fun t => t.id)).Pairwise
            (fun a b => GitProjectUniversal.numeroDoId a < GitProjectUniversal.numeroDoId b))
      ∧ (∀ k : Nat, ∃ ds : List Char,
        GitProjectUniversal.idTarefa k = String.mk ('T' :: ds) ∧ 3 ≤ ds.length
          ∧ (∀ c ∈ ds, JS.isDigit c = true) ∧ JS.parseDigits ds = k) := by
  refine ⟨?_, ?_, ?_⟩
  · intro config conteudo
    have h := GitProjectUniversal.extrairTarefas_ids config conteudo
    refine ⟨h, ?_, ?_⟩
    · rw [h]
      exact GitProjectUniversal.ids_range_nodup _ _
    · rw [h]
      exact GitProjectUniversal.ids_range_crescentes _ _
  · intro conteudo
    have h := GitHubProjectsAdapter.carregarCronograma_ids conteudo
    refine ⟨h, ?_, ?_⟩
    · rw [h]
      exact GitProjectUniversal.ids_range_nodup _ _
    · rw [h]
      exact GitProjectUniversal.ids_range_crescentes _ _
  · intro k
    obtain ⟨h1, h2, h3⟩ := JS.padStart3_spec k
    exact ⟨JS.padStart3 k, rfl, h1, h2, h3⟩

/-- The identifiers on the example schedule, whose rows have the days 7, 7 and
3: both parsers give T001, T002, T003. -/
theorem ids_documentoExemplo :
    (GitHubProjectsAdapter.carregarCronograma GitHubProjectsAdapter.documentoExemplo).map
        (fun t => (t.id, t.dia)) = [("T001", 7), ("T002", 7), ("T003", 3)]
      ∧ (GitProjectUniversal.todasTarefas
          (GitProjectUniversal.extrairTarefas GitProjectUniversal.configExemplo
            GitHubProjectsAdapter.documentoExemplo)).map (fun t => (t.id, t.dia))
        = [("T001", 7), ("T002", 7), ("T003", 3)] := by
  constructor <;> decide

/-! ## Termination of the allocation loop (C16) -/

namespace GitProjectUniversal

theorem organizarSprintsLoop_length (config : Config)
    (hcap : 0 < config.sprints.capacidade_pontos) :
    ∀ (fuel sprintAtual : Nat) (tarefas : List Tarefa) (sprints r : List Sprint),
      organizarSprintsLoop config fuel sprintAtual tarefas sprints = some r →
      r.length ≤ sprints.length + tarefas.length
  | fuel, n, [], sprints, r, h => by
    rw [organizarSprintsLoop] at h
    injection h with h
    rw [← h]
    simp
  | 0, n, t :: ts, sprints, r, h => by
    rw [organizarSprintsLoop] at h
    exact absurd h (by simp)
  | fuel + 1, n, t :: ts, sprints, r, h => by
    rw [organizarSprintsLoop] at h
    have h1 := organizarSprintsLoop_length config hcap fuel _ _ _ r h
    have h2 := encherSprint_resto_lt config.sprints.capacidade_pontos n t ts [] 0 hcap
    simp only [List.length_append, List.length_singleton, List.length_cons,
      List.length_nil] at h1 ⊢
    omega

/-- C16: for a capacity greater than 0 the loop of `organizarSprints` ends
within as many passes as there are tasks, and with any larger number of passes
allowed it gives the same sprints; each pass of the outer loop consumes at
least one task; the number of sprints is at most the number of tasks; and an
empty task list gives no sprint. -/
theorem organizarSprints_termina (config : Config) (cronograma : Cronograma)
    (hcap : 0 < config.sprints.capacidade_pontos) :
    (∃ sprints,
        (∀ k, organizarSprints config ((todasTarefas cronograma).length + k) cronograma
          = some sprints)
        ∧ sprints.length ≤ (todasTarefas cronograma).length)
      ∧ (∀ (sprintAtual : Nat) (tarefa : Tarefa) (resto : List Tarefa),
          (encherSprint config.sprints.capacidade_pontos sprintAtual (tarefa :: resto)
            [] 0).2.2.length < (tarefa :: resto).length)
      ∧ (todasTarefas cronograma = [] →
          ∀ fuel, organizarSprints config fuel cronograma = some []) := by
  refine ⟨?_, ?_, ?_⟩
  · obtain ⟨r, hr⟩ := organizarSprintsLoop_termina config hcap
      (todasTarefas cronograma).length 1 (todasTarefas cronograma) [] (le_refl _)
    refine ⟨r, fun k => organizarSprintsLoop_mono config _ 1 _ [] r hr k, ?_⟩
    have := organizarSprintsLoop_length config hcap _ 1 _ [] r hr
    simpa using this
  · intro n t resto
    have := encherSprint_resto_lt config.sprints.capacidade_pontos n t resto [] 0 hcap
    simp only [List.length_cons]
    omega
  · intro h fuel
    unfold organizarSprints
    rw [h, organizarSprintsLoop]

/-- Witness of C16: three tasks of 3, 3 and 2 points with capacity 5. -/
theorem organizarSprints_termina_witness :
    ∃ sprints,
      organizarSprints configExemplo 3
        (cronogramaDe [tarefaExemplo "T001" 3, tarefaExemplo "T002" 3,
          tarefaExemplo "T003" 2]) = some sprints
      ∧ sprints.length ≤ 3 := by
  obtain ⟨sprints, h1, h2⟩ := (organizarSprints_termina configExemplo
    (cronogramaDe [tarefaExemplo "T001" 3, tarefaExemplo "T002" 3,
      tarefaExemplo "T003" 2]) (by decide)).1
  exact ⟨sprints, h1 0, h2⟩

end GitProjectUniversal
